import Mathlib

/-!
Verification development for the figma-html-importer repository.

The repository is a two-stage pipeline: a DOM extractor (`domSerializer.ts`,
running in the browser UI context) producing an IR tree of `DomNodeData`
records, and a reconstructor (`code.ts`, running in the Figma sandbox)
building native Figma nodes from that IR.

Shallow-embedding conventions used throughout this file:
* JavaScript numbers are modelled as rationals (`ℚ`); results of string→number
  parses that can be `NaN` are modelled as `Option ℚ` (`none` = NaN), and the
  JS comparison semantics (`NaN < x` is false, etc.) are made explicit.
* The regular expressions of the source are translated into deterministic
  recursive-descent parsers over `List Char`; each such parser mirrors one
  regex of the source, which is quoted in its doc comment.  For the regexes
  appearing in the source this is faithful: the character classes involved
  (`[\d.]`, `\s`, literals) are pairwise disjoint at every choice point, so
  the regexes are deterministic and backtracking never changes the result.
* Browser / Figma capabilities (canvas colour round-trip, font catalog,
  SVG parsing, text measurement) are modelled as explicit environment
  (oracle) parameters.
-/

namespace FHI

/-- A JavaScript number that may be `NaN`: `none` models `NaN`. -/
abbrev JNum := Option ℚ

/-- JS `<` where the left side may be `NaN` (`NaN < q` is `false`). -/
def jLt (x : JNum) (q : ℚ) : Bool :=
  match x with
  | none => false
  | some v => decide (v < q)

/-- JS division of a possibly-NaN number by a non-zero constant. -/
def jDiv (x : JNum) (c : ℚ) : JNum :=
  x.map (fun v => v / c)

/-- JS whitespace class `\s` (restricted to the ASCII members, which are the
only ones produced by computed styles). -/
def isJsSpace (c : Char) : Bool :=
  c = ' ' || c = '\t' || c = '\n' || c = '\r' || c = '\x0b' || c = '\x0c'

/-- The character class `[\d.]` used by the numeric token of every colour /
gradient regex in `code.ts`. -/
def isDigitDot (c : Char) : Bool :=
  c.isDigit || c = '.'

/-- Numeric value of a (possibly empty) digit string. -/
def digitsVal (ds : List Char) : ℕ :=
  ds.foldl (fun a c => 10 * a + (c.toNat - 48)) 0

/-- Value of a fractional digit string (the digits after a decimal point). -/
def fracVal (ds : List Char) : ℚ :=
  (digitsVal ds : ℚ) / ((10 : ℚ) ^ ds.length)

/-- JS `parseFloat` applied to the front of a character list: an optional
integer part, an optional `.` followed by an optional fraction part; `NaN`
(i.e. `none`) when no digit occurs before parsing stops.  Returns the value
and the unconsumed suffix.  (Exponent forms never occur in the strings the
repository parses and are not modelled.) -/
def parseDecimalCore (cs : List Char) : JNum × List Char :=
  let ip := cs.takeWhile Char.isDigit
  let r1 := cs.dropWhile Char.isDigit
  match r1 with
  | '.' :: r2 =>
    let fp := r2.takeWhile Char.isDigit
    let r3 := r2.dropWhile Char.isDigit
    if ip.isEmpty && fp.isEmpty then (none, cs)
    else (some ((digitsVal ip : ℚ) + fracVal fp), r3)
  | _ => if ip.isEmpty then (none, cs) else (some ((digitsVal ip : ℚ)), r1)

/-- JS `parseFloat` on a whole string (leading whitespace and sign allowed). -/
def jsParseFloat (s : String) : JNum :=
  let cs := s.toList.dropWhile isJsSpace
  match cs with
  | '-' :: r => (parseDecimalCore r).1.map (fun q => -q)
  | '+' :: r => (parseDecimalCore r).1
  | _ => (parseDecimalCore cs).1

/-- JS `parseInt` (radix 10): `none` models `NaN`. -/
def jsParseInt (s : String) : Option ℤ :=
  let cs := s.toList.dropWhile isJsSpace
  let core (l : List Char) (sign : ℤ) : Option ℤ :=
    let ds := l.takeWhile Char.isDigit
    if ds.isEmpty then none else some (sign * (digitsVal ds : ℤ))
  match cs with
  | '-' :: r => core r (-1)
  | '+' :: r => core r 1
  | _ => core cs 1

/-- `pf` from `domSerializer.ts`: `parseFloat` with `NaN ↦ 0`. -/
def pf (val : String) : ℚ :=
  (jsParseFloat val).getD 0

/-- JS `Math.round` (half-up, i.e. `⌊x + 1/2⌋`). -/
def jsRound (q : ℚ) : ℤ :=
  let r := q + 1/2
  Int.fdiv r.num r.den

-- ─── Colour utilities (code.ts) ──────────────────────────────────

/-- `RGB` as used by `code.ts` (channel values are JS numbers). -/
structure RGB where
  r : JNum
  g : JNum
  b : JNum
deriving Repr, DecidableEq

/-- `ParsedColor` of `code.ts`. -/
structure ParsedColor where
  rgb : RGB
  a : JNum
deriving Repr, DecidableEq

/-- Eat `\s*`. -/
def eatWs (cs : List Char) : List Char :=
  cs.dropWhile isJsSpace

/-- One `[\d.]+` token; fails when empty. -/
def numTok (cs : List Char) : Option (List Char × List Char) :=
  let t := cs.takeWhile isDigitDot
  if t.isEmpty then none else some (t, cs.dropWhile isDigitDot)

/-- `parseFloat` of a `[\d.]+` token. -/
def tokVal (t : List Char) : JNum :=
  (parseDecimalCore t).1

/-- Match the prefix `rgba?\(`; returns the rest on success. -/
def matchRgbHead (cs : List Char) : Option (List Char) :=
  match cs with
  | 'r' :: 'g' :: 'b' :: 'a' :: '(' :: r => some r
  | 'r' :: 'g' :: 'b' :: '(' :: r => some r
  | _ => none

/-- Match the prefix `color\(srgb` (followed by mandatory whitespace). -/
def matchSrgbHead (cs : List Char) : Option (List Char) :=
  match cs with
  | 'c' :: 'o' :: 'l' :: 'o' :: 'r' :: '(' :: 's' :: 'r' :: 'g' :: 'b' :: r => some r
  | _ => none

/-- Tail of regex `^rgba?\(\s*([\d.]+)\s*,\s*([\d.]+)\s*,\s*([\d.]+)(?:\s*,\s*([\d.]+))?\s*\)$`
after the head: yields the three channel tokens and the optional alpha token. -/
def parseLegacyArgs (cs : List Char) :
    Option (List Char × List Char × List Char × Option (List Char)) := do
  let cs := eatWs cs
  let (t1, cs) ← numTok cs
  let cs := eatWs cs
  let cs ← match cs with | ',' :: r => some r | _ => none
  let cs := eatWs cs
  let (t2, cs) ← numTok cs
  let cs := eatWs cs
  let cs ← match cs with | ',' :: r => some r | _ => none
  let cs := eatWs cs
  let (t3, cs) ← numTok cs
  let cs := eatWs cs
  match cs with
  | ',' :: r =>
    let r := eatWs r
    let (t4, r) ← numTok r
    let r := eatWs r
    match r with
    | [')'] => some (t1, t2, t3, some t4)
    | _ => none
  | [')'] => some (t1, t2, t3, none)
  | _ => none

/-- One `[\d.]+%?` alpha token: the numeric token plus a flag for a trailing `%`. -/
def alphaTok (cs : List Char) : Option (List Char × Bool × List Char) := do
  let (t, cs) ← numTok cs
  match cs with
  | '%' :: r => some (t, true, r)
  | _ => some (t, false, cs)

/-- Tail of regex `^rgba?\(\s*([\d.]+)\s+([\d.]+)\s+([\d.]+)(?:\s*\/\s*([\d.]+%?))?\s*\)$`
(and of the `color(srgb …)` regex, which has the same argument shape)
after the head: three whitespace-separated channel tokens and an optional
`/ alpha` part. -/
def parseModernArgs (cs : List Char) :
    Option (List Char × List Char × List Char × Option (List Char × Bool)) := do
  let cs := eatWs cs
  let (t1, cs) ← numTok cs
  let ws1 := cs.takeWhile isJsSpace
  if ws1.isEmpty then none else
  let cs := cs.dropWhile isJsSpace
  let (t2, cs) ← numTok cs
  let ws2 := cs.takeWhile isJsSpace
  if ws2.isEmpty then none else
  let cs := cs.dropWhile isJsSpace
  let (t3, cs) ← numTok cs
  let cs := eatWs cs
  match cs with
  | '/' :: r =>
    let r := eatWs r
    let (t4, pct, r) ← alphaTok r
    let r := eatWs r
    match r with
    | [')'] => some (t1, t2, t3, some (t4, pct))
    | _ => none
  | [')'] => some (t1, t2, t3, none)
  | _ => none

/-- Alpha value of a `[\d.]+%?` capture: `endsWith('%') ? parseFloat/100 : parseFloat`. -/
def modernAlpha (t : List Char × Bool) : JNum :=
  if t.2 then jDiv (tokVal t.1) 100 else tokVal t.1

/-- `parseColor` from `code.ts`: recognises the legacy comma form, the modern
space-separated form (with optional `/ alpha`), and the `color(srgb …)` form;
channel values of the first two are divided by 255, `srgb` channels are taken
as already being in 0–1. -/
def parseColor (css : String) : Option ParsedColor :=
  if css = "" || css = "transparent" || css = "none" then none
  else
    let cs := css.toList
    match matchRgbHead cs with
    | some rest =>
      match parseLegacyArgs rest with
      | some (t1, t2, t3, a4) =>
        some { rgb := ⟨jDiv (tokVal t1) 255, jDiv (tokVal t2) 255, jDiv (tokVal t3) 255⟩,
               a := match a4 with | some t => tokVal t | none => some 1 }
      | none =>
        match parseModernArgs rest with
        | some (t1, t2, t3, a4) =>
          some { rgb := ⟨jDiv (tokVal t1) 255, jDiv (tokVal t2) 255, jDiv (tokVal t3) 255⟩,
                 a := match a4 with | some t => modernAlpha t | none => some 1 }
        | none => none
    | none =>
      match matchSrgbHead cs with
      | some rest =>
        -- the `color(srgb …)` regex requires `\s+` after `srgb`, which
        -- `parseModernArgs` enforces only between channels; require it here
        match rest with
        | c :: _ =>
          if isJsSpace c then
            match parseModernArgs rest with
            | some (t1, t2, t3, a4) =>
              some { rgb := ⟨tokVal t1, tokVal t2, tokVal t3⟩,
                     a := match a4 with | some t => modernAlpha t | none => some 1 }
            | none => none
          else none
        | [] => none
      | none => none

/-- `isTransparent` from `code.ts`. -/
def isTransparent (css : String) : Bool :=
  if css = "" || css = "transparent" || css = "none" then true
  else
    match parseColor css with
    | some c => jLt c.a (1/100)
    | none => false

/-- `SolidPaint` (the `type: 'SOLID'` discriminator is implicit). -/
structure SolidPaint where
  color : RGB
  opacity : JNum
deriving Repr, DecidableEq

/-- `toSolidPaint` from `code.ts`. -/
def toSolidPaint (css : String) : Option SolidPaint :=
  match parseColor css with
  | none => none
  | some c => if jLt c.a (1/100) then none else some { color := c.rgb, opacity := c.a }

-- ─── Font utilities (code.ts) ────────────────────────────────────

/-- `weightToFigmaStyle` from `code.ts`: `parseInt(weight) || 400` followed by
the descending threshold chain. -/
def weightToFigmaStyle (weight : String) (italic : Bool) : String :=
  let w : ℤ :=
    match jsParseInt weight with
    | some n => if n = 0 then 400 else n
    | none => 400
  let style :=
    if w ≥ 900 then "Black"
    else if w ≥ 800 then "ExtraBold"
    else if w ≥ 700 then "Bold"
    else if w ≥ 600 then "SemiBold"
    else if w ≥ 500 then "Medium"
    else if w ≥ 300 then "Light"
    else if w ≥ 200 then "ExtraLight"
    else if w ≥ 100 then "Thin"
    else "Regular"
  if italic then style ++ " Italic" else style

-- ─── Box shadow / gradient parsing (code.ts) ─────────────────────

/-- Trim JS whitespace from both ends of a character list. -/
def trimList (cs : List Char) : List Char :=
  ((cs.dropWhile isJsSpace).reverse.dropWhile isJsSpace).reverse

/-- JS `String.prototype.trim()`. -/
def jsTrim (s : String) : String :=
  String.mk (trimList s.toList)

/-- JS `String.prototype.toLowerCase()` (ASCII range). -/
def lowerStr (s : String) : String :=
  String.mk (s.toList.map Char.toLower)

/-- Hex digit class `[\da-fA-F]`. -/
def isHexChar (c : Char) : Bool :=
  c.isDigit || ('a' ≤ c && c ≤ 'f') || ('A' ≤ c && c ≤ 'F')

/-- Value of one hex digit. -/
def hexVal (c : Char) : ℕ :=
  if c.isDigit then c.toNat - 48
  else if 'a' ≤ c then c.toNat - 87
  else c.toNat - 55

/-- `parseInt(h.slice(i, i+2), 16) / 255` for one hex channel pair. -/
def hexPair (a b : Char) : JNum :=
  some (((16 * hexVal a + hexVal b : ℕ) : ℚ) / 255)

/-- `parseHexColor` from `code.ts`: regex `^#([\da-fA-F]{3,8})$` on the trimmed
input, 3-digit shorthand doubled, 6 digits get an `ff` alpha, any other
length than 8 after expansion is rejected. -/
def parseHexColor (hex : String) : Option ParsedColor :=
  match trimList hex.toList with
  | '#' :: rest =>
    if rest.all isHexChar && 3 ≤ rest.length && rest.length ≤ 8 then
      let h : List Char :=
        match rest with
        | [a, b, c] => [a, a, b, b, c, c]
        | _ => rest
      let h := if h.length = 6 then h ++ ['f', 'f'] else h
      match h with
      | [r1, r2, g1, g2, b1, b2, a1, a2] =>
        some { rgb := ⟨hexPair r1 r2, hexPair g1 g2, hexPair b1 b2⟩, a := hexPair a1 a2 }
      | _ => none
    else none
  | _ => none

/-- Worker for `splitTopLevelCommas`: the depth counter is an integer exactly
as in the source (unbalanced `)` drives it negative). -/
def splitTLC : List Char → ℤ → List Char → List String
  | [], _, acc => [String.mk (trimList acc.reverse)]
  | c :: rest, depth, acc =>
    if c = '(' then splitTLC rest (depth + 1) (c :: acc)
    else if c = ')' then splitTLC rest (depth - 1) (c :: acc)
    else if c = ',' && depth = 0 then
      String.mk (trimList acc.reverse) :: splitTLC rest 0 []
    else splitTLC rest depth (c :: acc)

/-- `splitTopLevelCommas` from `code.ts`: split on commas at parenthesis
depth 0, trimming every part. -/
def splitTopLevelCommas (s : String) : List String :=
  splitTLC s.toList 0 []

/-- RGBA colour of a gradient stop (`{ ...parsed.rgb, a: parsed.a }`). -/
structure RGBA where
  r : JNum
  g : JNum
  b : JNum
  a : JNum
deriving Repr, DecidableEq

/-- `ColorStop` of the Figma API as populated by `parseLinearGradient`. -/
structure ColorStop where
  position : JNum
  color : RGBA
deriving Repr, DecidableEq

/-- The data of the `GradientPaint` built by `parseLinearGradient`.  The
`gradientTransform` entries are the only irrational values produced by the
reconstructor; they are a pure function of `angleDeg` (see
`gradientTransform` below), so the paint is represented by the angle and
the stops. -/
structure GradientPaintData where
  angleDeg : JNum
  gradientStops : List ColorStop
deriving Repr, DecidableEq

/-- Regex `^linear-gradient\(([\s\S]+)\)$` (case-insensitive): returns the
capture (everything between the head and the final `)`). -/
def matchLinearGradientHead (css : String) : Option String :=
  let cs := css.toList
  let pre := cs.take 16
  if pre.map Char.toLower = String.toList "linear-gradient(" then
    let rest := cs.drop 16
    if 2 ≤ rest.length && rest.getLast? = some ')' then
      some (String.mk rest.dropLast)
    else none
  else none

/-- `/deg$/i.test(s)`. -/
def endsWithDeg (s : String) : Bool :=
  (s.toList.map Char.toLower).reverse.take 3 = ['g', 'e', 'd']

/-- `/^to\s/i.test(s)`. -/
def startsWithTo (s : String) : Bool :=
  match s.toList with
  | 't' :: 'o' :: c :: _ => isJsSpace c
  | 'T' :: 'o' :: c :: _ => isJsSpace c
  | 't' :: 'O' :: c :: _ => isJsSpace c
  | 'T' :: 'O' :: c :: _ => isJsSpace c
  | _ => false

/-- Suffix part of the stop-splitting regex `(.+?)\s+([\d.]+)%\s*$`:
matches `^\s+([\d.]+)%\s*$` and returns the numeric capture. -/
def matchTailPct (cs : List Char) : Option (List Char) :=
  if (cs.takeWhile isJsSpace).isEmpty then none
  else
    let r := cs.dropWhile isJsSpace
    let t := r.takeWhile isDigitDot
    if t.isEmpty then none
    else
      match r.dropWhile isDigitDot with
      | '%' :: r2 => if (r2.dropWhile isJsSpace).isEmpty then some t else none
      | _ => none

/-- Lazy `(.+?)` from a fixed start position: the shortest non-empty
newline-free prefix whose remainder matches `matchTailPct`. -/
def posSplitFrom : List Char → List Char → Option (List Char × List Char)
  | _, [] => none
  | acc, c :: rs =>
    if c = '\n' then none
    else
      match matchTailPct rs with
      | some t => some (acc ++ [c], t)
      | none => posSplitFrom (acc ++ [c]) rs

/-- `part.match(/(.+?)\s+([\d.]+)%\s*$/)`: leftmost match over all start
positions (later starts only matter past a newline, which `.` cannot cross). -/
def execPosMatch : List Char → Option (List Char × List Char)
  | [] => none
  | c :: rest =>
    match posSplitFrom [] (c :: rest) with
    | some r => some r
    | none => execPosMatch rest

/-- One iteration of the colour-stop loop of `parseLinearGradient`:
given the stop-argument count, the index and the raw argument, resolve the
stop or skip it (`none`). -/
def parseStop (count i : ℕ) (part0 : String) : Option ColorStop :=
  let part := jsTrim part0
  let (colorStr, position) :=
    match execPosMatch part.toList with
    | some (pre, tok) => (jsTrim (String.mk pre), jDiv (tokVal tok) 100)
    | none => (part, some ((i : ℚ) / (max (count - 1) 1 : ℕ)))
  match parseColor colorStr with
  | some parsed => some { position, color := ⟨parsed.rgb.r, parsed.rgb.g, parsed.rgb.b, parsed.a⟩ }
  | none =>
    match parseHexColor colorStr with
    | some parsed => some { position, color := ⟨parsed.rgb.r, parsed.rgb.g, parsed.rgb.b, parsed.a⟩ }
    | none => none

/-- Angle / direction handling of `parseLinearGradient`: returns the angle in
degrees (possibly NaN) and the index of the first stop argument. -/
def parseGradientAngle (firstPart : String) : JNum × ℕ :=
  let angleStr := jsTrim firstPart
  if endsWithDeg angleStr then (jsParseFloat angleStr, 1)
  else if startsWithTo angleStr then
    let dir := lowerStr angleStr
    let a : ℚ :=
      if dir = "to top" then 0
      else if dir = "to right" then 90
      else if dir = "to bottom" then 180
      else if dir = "to left" then 270
      else if dir = "to top right" then 45
      else if dir = "to bottom right" then 135
      else if dir = "to bottom left" then 225
      else if dir = "to top left" then 315
      else 180
    (some a, 1)
  else (some 180, 0)

/-- `parseLinearGradient` from `code.ts` (the data part: angle and stops; the
angle-derived affine transform is `gradientTransform` below). -/
def parseLinearGradient (css : String) : Option GradientPaintData :=
  match matchLinearGradientHead css with
  | none => none
  | some inner =>
    let parts := splitTopLevelCommas inner
    if parts.length < 2 then none
    else
      let (angleDeg, stopStart) :=
        match parts.head? with
        | some p => parseGradientAngle p
        | none => (some 180, 0)
      let stopParts := parts.drop stopStart
      let gradientStops :=
        (List.range stopParts.length).filterMap
          (fun i => parseStop stopParts.length i (stopParts.getD i ""))
      if gradientStops.length < 2 then none
      else some { angleDeg, gradientStops }

/-- The angle-derived affine transform of `parseLinearGradient`:
`[[sinθ, cosθ, 0.5(1−sinθ)], [−cosθ, sinθ, 0.5(1+cosθ)]]` where
`θ = angleDeg·π/180`. -/
noncomputable def gradientTransform (angleDeg : ℝ) : (ℝ × ℝ × ℝ) × (ℝ × ℝ × ℝ) :=
  let rad := angleDeg * Real.pi / 180
  let cosA := Real.cos rad
  let sinA := Real.sin rad
  ((sinA, cosA, 0.5 * (1 - sinA)), (-cosA, sinA, 0.5 * (1 + cosA)))

/-- Application of a 2×3 affine transform to a point, as Figma interprets
`gradientTransform` (`transform([x,y]) = (a·x + b·y + tx, c·x + d·y + ty)`). -/
def applyTransform (T : (ℝ × ℝ × ℝ) × (ℝ × ℝ × ℝ)) (p : ℝ × ℝ) : ℝ × ℝ :=
  (T.1.1 * p.1 + T.1.2.1 * p.2 + T.1.2.2, T.2.1 * p.1 + T.2.2.1 * p.2 + T.2.2.2)

-- ─── Style application (code.ts) ─────────────────────────────────

/-- `DomStyleData` from `types.ts`. -/
structure DomStyleData where
  backgroundColor : String
  backgroundImage : String
  color : String
  fontSize : ℚ
  fontWeight : String
  fontFamily : String
  fontStyle : String
  lineHeight : String
  textAlign : String
  letterSpacing : String
  textDecoration : String
  borderTopLeftRadius : ℚ
  borderTopRightRadius : ℚ
  borderBottomRightRadius : ℚ
  borderBottomLeftRadius : ℚ
  borderTopWidth : ℚ
  borderRightWidth : ℚ
  borderBottomWidth : ℚ
  borderLeftWidth : ℚ
  borderColor : String
  borderStyle : String
  opacity : ℚ
  boxShadow : String
  overflow : String
  display : String
  flexDirection : String
  alignItems : String
  justifyContent : String
  rowGap : ℚ
  columnGap : ℚ
  paddingTop : ℚ
  paddingRight : ℚ
  paddingBottom : ℚ
  paddingLeft : ℚ
  position : String
deriving Repr, DecidableEq

/-- A paint as assigned to `frame.fills`. -/
inductive Paint where
  | solid (p : SolidPaint)
  | gradient (g : GradientPaintData)
deriving Repr, DecidableEq

/-- The fill computation of `applyFrameStyle` in `code.ts`: a parseable
gradient `backgroundImage` wins, otherwise the solid `backgroundColor`,
otherwise no fill. -/
def applyFrameStyleFills (s : DomStyleData) : List Paint :=
  if s.backgroundImage ≠ "" && s.backgroundImage ≠ "none" then
    match parseLinearGradient s.backgroundImage with
    | some grad => [Paint.gradient grad]
    | none =>
      match toSolidPaint s.backgroundColor with
      | some solid => [Paint.solid solid]
      | none => []
  else
    match toSolidPaint s.backgroundColor with
    | some solid => [Paint.solid solid]
    | none => []

/-- The `clipsContent` assignment of `applyFrameStyle`. -/
def applyFrameStyleClips (s : DomStyleData) : Bool :=
  s.overflow = "hidden" || s.overflow = "clip"

-- ─── Font utilities (code.ts) ────────────────────────────────────

/-- `FONT_MAP` from `code.ts` as a lookup function. -/
def FONT_MAP : String → Option String
  | "inter" => some "Inter"
  | "roboto" => some "Roboto"
  | "open sans" => some "Open Sans"
  | "noto sans" => some "Noto Sans"
  | "lato" => some "Lato"
  | "montserrat" => some "Montserrat"
  | "poppins" => some "Poppins"
  | "nunito" => some "Nunito"
  | "raleway" => some "Raleway"
  | "ubuntu" => some "Ubuntu"
  | "source sans pro" => some "Source Sans Pro"
  | "playfair display" => some "Playfair Display"
  | "merriweather" => some "Merriweather"
  | "georgia" => some "Georgia"
  | "times new roman" => some "Times New Roman"
  | "courier new" => some "Courier New"
  | "roboto mono" => some "Roboto Mono"
  | "source code pro" => some "Source Code Pro"
  | "fira code" => some "Fira Code"
  | "jetbrains mono" => some "JetBrains Mono"
  | "pretendard" => some "Pretendard"
  | "pretendard variable" => some "Pretendard"
  | "noto sans kr" => some "Noto Sans KR"
  | "noto sans cjk kr" => some "Noto Sans KR"
  | "apple sd gothic neo" => some "Noto Sans KR"
  | "malgun gothic" => some "Noto Sans KR"
  | "nanumgothic" => some "Noto Sans KR"
  | "nanum gothic" => some "Noto Sans KR"
  | "sans-serif" => some "Inter"
  | "serif" => some "Merriweather"
  | "monospace" => some "Roboto Mono"
  | "system-ui" => some "Inter"
  | "-apple-system" => some "Inter"
  | "blinkmacsystemfont" => some "Inter"
  | "segoe ui" => some "Inter"
  | "helvetica neue" => some "Inter"
  | "helvetica" => some "Inter"
  | "arial" => some "Inter"
  | "apple system" => some "Inter"
  | _ => none

/-- JS `String.prototype.split(sep)` for a single-character separator. -/
def splitOnChar (sep : Char) : List Char → List Char → List String
  | [], acc => [String.mk acc.reverse]
  | c :: rest, acc =>
    if c = sep then String.mk acc.reverse :: splitOnChar sep rest []
    else splitOnChar sep rest (c :: acc)

/-- `mapFontFamily` from `code.ts`: split the comma-separated list, trim,
strip quotes, lower-case, return the first `FONT_MAP` hit, `"Inter"`
otherwise. -/
def mapFontFamily (cssFontFamily : String) : String :=
  let families := (splitOnChar ',' cssFontFamily.toList []).map
    (fun f => lowerStr (String.mk ((trimList f.toList).filter
      (fun c => !(c = '\'' || c = '"')))))
  match families.findSome? FONT_MAP with
  | some v => v
  | none => "Inter"

/-- JS `String.prototype.replace(pattern, repl)` with a string pattern:
replaces the first occurrence only. -/
def replaceFirstList (pat repl : List Char) : List Char → List Char
  | [] => []
  | c :: rest =>
    if (c :: rest).take pat.length = pat then repl ++ (c :: rest).drop pat.length
    else c :: replaceFirstList pat repl rest

/-- `replaceFirst` on strings (JS `s.replace(pat, repl)` for string patterns). -/
def replaceFirst (s pat repl : String) : String :=
  String.mk (replaceFirstList pat.toList repl.toList s.toList)

/-- `FontName` of the Figma API. -/
structure FontName where
  family : String
  style : String
deriving Repr, DecidableEq

/-- `KOREAN_FAMILIES` from `code.ts`. -/
def KOREAN_FAMILIES (f : String) : Bool :=
  f = "Pretendard" || f = "Noto Sans KR" || f = "Apple SD Gothic Neo" ||
  f = "Malgun Gothic" || f = "NanumGothic"

/-- The candidate ladder of `loadBestFont` from `code.ts`: the exact name,
the spaced / compact style-name variants, the style without an italic
suffix, the family's Regular, the Noto Sans KR ladder for Korean families,
and finally Inter Regular. -/
def loadBestFontCandidates (family style : String) : List FontName :=
  let c0 : List FontName := [⟨family, style⟩]
  let spaced := replaceFirst (replaceFirst (replaceFirst style
    "SemiBold" "Semi Bold") "ExtraBold" "Extra Bold") "ExtraLight" "Extra Light"
  let c1 := if spaced ≠ style then c0 ++ [⟨family, spaced⟩] else c0
  let compact := replaceFirst (replaceFirst (replaceFirst style
    "Semi Bold" "SemiBold") "Extra Bold" "ExtraBold") "Extra Light" "ExtraLight"
  let c2 := if compact ≠ style then c1 ++ [⟨family, compact⟩] else c1
  let c3 := c2 ++ [⟨family, replaceFirst style " Italic" ""⟩, ⟨family, "Regular"⟩]
  let c4 :=
    if family ≠ "Noto Sans KR" && KOREAN_FAMILIES family then
      c3 ++ [⟨"Noto Sans KR", style⟩,
             ⟨"Noto Sans KR", replaceFirst style " Italic" ""⟩,
             ⟨"Noto Sans KR", "Regular"⟩]
    else c3
  c4 ++ [⟨"Inter", "Regular"⟩]

/-- The environment of capabilities the Figma sandbox provides to the
reconstructor: which fonts load, which SVG strings `createNodeFromSvg`
accepts (false models a thrown exception), the size `createNodeFromSvg`
gives the resulting frame, the text-engine measurement of an auto-resized
text node, and the viewport center. -/
structure Env where
  fontLoads : FontName → Bool
  svgParses : String → Bool
  svgSize : String → ℚ × ℚ
  measuredSize : String → FontName → ℚ → ℚ × ℚ
  viewportCenter : ℚ × ℚ

/-- `loadBestFont` from `code.ts`: try each candidate in order, return the
first that loads, throw `"Cannot load any font"` after the last. -/
def loadBestFont (env : Env) (family style : String) : Except String FontName :=
  match (loadBestFontCandidates family style).find? (fun fn => env.fontLoads fn) with
  | some fn => .ok fn
  | none => .error "Cannot load any font"

-- ─── Text node construction (code.ts buildTree) ──────────────────

/-- `TextSegment` from `types.ts` (`bold` and `color` are optional). -/
structure TextSegment where
  text : String
  bold : Bool := false
  color : Option String := none
deriving Repr, DecidableEq

/-- JS `String.prototype.includes` (substring search). -/
def containsSub (hay : List Char) (needle : List Char) : Bool :=
  match hay with
  | [] => needle.isEmpty
  | _ :: rest => hay.take needle.length = needle || containsSub rest needle

/-- `/^(block|flex|grid|list-item|table)/.test(s)`. -/
def isBlockDisplayTest (s : String) : Bool :=
  let cs := s.toList
  cs.take 5 = String.toList "block" || cs.take 4 = String.toList "flex" ||
  cs.take 4 = String.toList "grid" || cs.take 9 = String.toList "list-item" ||
  cs.take 5 = String.toList "table"

/-- `textAutoResize` values used by `makeText`. -/
inductive AutoResize where
  | HEIGHT
  | WIDTH_AND_HEIGHT
deriving Repr, DecidableEq

/-- One character-range override produced by `applyBoldSegments`. -/
structure SegOverride where
  start : ℕ
  stop : ℕ
  font : Option FontName
  fill : Option SolidPaint
deriving Repr, DecidableEq

/-- The text node as populated by `makeText` in `code.ts` plus the range
overrides added by `applyBoldSegments`. -/
structure TextNode where
  fontName : FontName
  fontSize : ℚ
  characters : String
  fills : Option SolidPaint
  textAlignHorizontal : String
  lineHeight : Option ℤ
  letterSpacing : Option ℚ
  textDecoration : Option String
  textAutoResize : AutoResize
  width : ℚ
  height : ℚ
  x : ℚ
  y : ℚ
  visible : Bool
  overrides : List SegOverride
deriving Repr, DecidableEq

/-- `makeText` from `code.ts` (`fixedWidth > 0` ⇒ fixed-width `HEIGHT`
auto-resize, otherwise `WIDTH_AND_HEIGHT`); the engine-measured width and
height of auto-sized text come from the environment. -/
def makeText (env : Env) (style : DomStyleData) (text : String) (fontName : FontName)
    (tx ty : ℚ) (fixedWidth : ℚ) : TextNode :=
  let fontSize := max style.fontSize 1
  let fills := toSolidPaint style.color
  let alignH :=
    if style.textAlign = "left" then "LEFT"
    else if style.textAlign = "center" then "CENTER"
    else if style.textAlign = "right" then "RIGHT"
    else if style.textAlign = "justify" then "JUSTIFIED"
    else "LEFT"
  let lh := jsParseFloat style.lineHeight
  let lineHeight :=
    match lh with
    | some v => if 0 < v ∧ style.lineHeight ≠ "normal" then some (jsRound v) else none
    | none => none
  let ls := jsParseFloat style.letterSpacing
  let letterSpacing :=
    match ls with
    | some v =>
      if style.letterSpacing ≠ "normal" ∧ style.letterSpacing ≠ "0px" then some v else none
    | none => none
  let deco :=
    if containsSub style.textDecoration.toList (String.toList "underline") then
      some "UNDERLINE"
    else if containsSub style.textDecoration.toList (String.toList "line-through") then
      some "STRIKETHROUGH"
    else none
  let msz := env.measuredSize text fontName fontSize
  if 0 < fixedWidth then
    { fontName, fontSize, characters := text, fills, textAlignHorizontal := alignH,
      lineHeight, letterSpacing, textDecoration := deco,
      textAutoResize := .HEIGHT, width := max fixedWidth 10, height := msz.2,
      x := tx, y := ty, visible := true, overrides := [] }
  else
    { fontName, fontSize, characters := text, fills, textAlignHorizontal := alignH,
      lineHeight, letterSpacing, textDecoration := deco,
      textAutoResize := .WIDTH_AND_HEIGHT, width := msz.1, height := msz.2,
      x := tx, y := ty, visible := true, overrides := [] }

/-- One iteration body of `applyBoldSegments` from `code.ts`: within range,
a bold segment loads the 700-weight font (which can throw), a coloured
segment adds a fill override. -/
def boldSegOverride (env : Env) (family : String) (isItalic : Bool)
    (charsLen offset : ℕ) (seg : TextSegment) : Except String (List SegOverride) :=
  let len := seg.text.length
  if 0 < len ∧ offset + len ≤ charsLen then
    let fontE : Except String (Option FontName) :=
      if seg.bold then
        match loadBestFont env family (weightToFigmaStyle "700" isItalic) with
        | .ok f => .ok (some f)
        | .error e => .error e
      else .ok none
    match fontE with
    | .error e => .error e
    | .ok font =>
      let fill :=
        match seg.color with
        | some c => toSolidPaint c
        | none => none
      if font.isSome || fill.isSome then
        .ok [({ start := offset, stop := offset + len, font, fill } : SegOverride)]
      else .ok []
  else .ok []

/-- The segment walk of `applyBoldSegments` (errors of a bold-font load
propagate). -/
def boldSegmentsGo (env : Env) (family : String) (isItalic : Bool) (charsLen : ℕ) :
    ℕ → List TextSegment → Except String (List SegOverride)
  | _, [] => .ok []
  | offset, seg :: rest =>
    match boldSegOverride env family isItalic charsLen offset seg with
    | .error e => .error e
    | .ok here =>
      match boldSegmentsGo env family isItalic charsLen (offset + seg.text.length) rest with
      | .error e => .error e
      | .ok later => .ok (here ++ later)

/-- `applyBoldSegments` from `code.ts`. -/
def applyBoldSegments (env : Env) (family : String) (isItalic : Bool)
    (textSegments : Option (List TextSegment)) (chars : String) :
    Except String (List SegOverride) :=
  match textSegments with
  | none => .ok []
  | some segs =>
    if segs.isEmpty then .ok []
    else boldSegmentsGo env family isItalic chars.length 0 segs

-- ─── The IR tree (types.ts DomNodeData) ──────────────────────────

/-- `rect` of a `DomNodeData`: the extractor rounds every geometry value to
whole pixels before transmission, so the wire values are integers. -/
structure IRect where
  x : ℤ
  y : ℤ
  width : ℤ
  height : ℤ
deriving Repr, DecidableEq

/-- The non-recursive fields of `DomNodeData` from `types.ts`. -/
structure NodeCore where
  tagName : String
  text : Option String
  textSegments : Option (List TextSegment)
  imageUrl : Option String
  svgHtml : Option String
  rect : IRect
  visible : Bool
  style : DomStyleData
deriving Repr, DecidableEq

/-- `DomNodeData` from `types.ts` (recursive via `children`). -/
inductive DomNodeData where
  | mk (core : NodeCore) (children : List DomNodeData)

/-- The non-recursive fields of an IR node. -/
def DomNodeData.core : DomNodeData → NodeCore
  | .mk c _ => c

/-- The children of an IR node. -/
def DomNodeData.children : DomNodeData → List DomNodeData
  | .mk _ cs => cs

-- ─── Figma node model (output of code.ts buildTree) ──────────────

/-- The frame properties `buildTree` / `applyFrameStyle` assign that some
claim refers to (name, geometry, fills, clipsContent, visibility).  The
remaining `applyFrameStyle` assignments — corner radii, strokes, drop
shadow, opacity — are not modelled: no claim mentions them. -/
structure FrameData where
  name : String
  width : ℚ
  height : ℚ
  x : ℚ
  y : ℚ
  fills : List Paint
  clipsContent : Bool
  visible : Bool
deriving Repr, DecidableEq

/-- A rectangle node (SVG placeholder / image placeholder). -/
structure RectData where
  name : String
  width : ℚ
  height : ℚ
  x : ℚ
  y : ℚ
  fills : List Paint
  visible : Bool
deriving Repr, DecidableEq

/-- A node emitted by the reconstructor. -/
inductive FigmaNode where
  | frame (data : FrameData) (children : List FigmaNode)
  | text (t : TextNode)
  | rect (r : RectData)

/-- JS truthiness of an optional string (`undefined` and `""` are falsy). -/
def truthyStr : Option String → Bool
  | some t => t ≠ ""
  | none => false

/-- The `hasBorder` test of the text-leaf branch of `buildTree`. -/
def hasBorderB (style : DomStyleData) : Bool :=
  let bw := max (max style.borderTopWidth style.borderRightWidth)
               (max style.borderBottomWidth style.borderLeftWidth)
  decide (0 < bw) && style.borderStyle ≠ "none" && !isTransparent style.borderColor

/-- The `hasBg` test of the text-leaf branch of `buildTree`. -/
def hasBgB (style : DomStyleData) : Bool :=
  !isTransparent style.backgroundColor ||
  (style.backgroundImage ≠ "" && style.backgroundImage ≠ "none")

/-- The single-line test of `buildTree`: `h < style.fontSize * 3.5`. -/
def isSingleLineB (style : DomStyleData) (h : ℚ) : Bool :=
  decide (h < style.fontSize * (7/2))

/-- `calcFixedWidth` of the text-leaf branch: fixed width only when the
container is wider than 1.5× the rough minimum estimate
`fontSize × text.length`. -/
def calcFixedWidth (style : DomStyleData) (textLen : ℕ) (containerW : ℚ) : ℚ :=
  let estMin := style.fontSize * (textLen : ℚ)
  if estMin * (3/2) < containerW then containerW else 0

/-- The text-leaf branch of `buildTree` (`code.ts` lines 432–602): resolve
the font, wrap in a styled frame when a border or background is present,
otherwise emit a plain text node, with the single-line/alignment layout
policies; returns the emitted node and its (frame, text) count deltas. -/
def buildTextLeaf (env : Env) (core : NodeCore) (text : String) (w h : ℚ) :
    Except String (FigmaNode × ℕ × ℕ) :=
  let style := core.style
  let rect := core.rect
  let family := mapFontFamily style.fontFamily
  let isItalic := style.fontStyle = "italic" || style.fontStyle = "oblique"
  let figmaStyle := weightToFigmaStyle style.fontWeight isItalic
  match loadBestFont env family figmaStyle with
  | .error e => .error e
  | .ok fontName =>
    let hasBorder := hasBorderB style
    let hasBg := hasBgB style
    let isSingleLine := isSingleLineB style h
    if hasBorder || hasBg then
      let frame : FrameData :=
        { name := core.tagName, width := w, height := h,
          x := (rect.x : ℚ), y := (rect.y : ℚ),
          fills := applyFrameStyleFills style, clipsContent := applyFrameStyleClips style,
          visible := core.visible }
      if isSingleLine then
        let t0 := makeText env style text fontName style.paddingLeft style.paddingTop 0
        match applyBoldSegments env family isItalic core.textSegments text with
        | .error e => .error e
        | .ok ovs =>
          let t0 := { t0 with overrides := ovs }
          let isFlex := containsSub style.display.toList (String.toList "flex")
          let t1 :=
            if isFlex && style.justifyContent = "center" then
              { t0 with x := ((jsRound ((w - t0.width) / 2) : ℤ) : ℚ) }
            else if style.textAlign = "center" then
              { t0 with x := ((jsRound ((w - t0.width) / 2) : ℤ) : ℚ) }
            else t0
          let t2 :=
            if isFlex && style.alignItems = "center" then
              { t1 with y := ((jsRound ((h - t1.height) / 2) : ℤ) : ℚ) }
            else if core.tagName = "button" || core.tagName = "a" then
              { t1 with y := ((jsRound ((h - t1.height) / 2) : ℤ) : ℚ) }
            else t1
          .ok (.frame frame [.text t2], 1, 1)
      else
        let textAreaW := max (w - style.paddingLeft - style.paddingRight) 10
        let t0 := makeText env style text fontName style.paddingLeft style.paddingTop textAreaW
        match applyBoldSegments env family isItalic core.textSegments text with
        | .error e => .error e
        | .ok ovs =>
          let t0 := { t0 with overrides := ovs }
          let isFlex2 := containsSub style.display.toList (String.toList "flex")
          let t1 :=
            if isFlex2 && style.alignItems = "center" then
              { t0 with y := ((jsRound ((h - t0.height) / 2) : ℤ) : ℚ) }
            else if core.tagName = "button" || core.tagName = "a" then
              { t0 with y := ((jsRound ((h - t0.height) / 2) : ℤ) : ℚ) }
            else t0
          .ok (.frame frame [.text t1], 1, 1)
    else if style.textAlign = "center" || style.textAlign = "right" then
      let t0 := makeText env style text fontName 0 (rect.y : ℚ) 0
      match applyBoldSegments env family isItalic core.textSegments text with
      | .error e => .error e
      | .ok ovs =>
        let t0 := { t0 with overrides := ovs }
        let t1 :=
          if style.textAlign = "center" then
            { t0 with x := ((jsRound (((rect.x : ℚ) + (rect.width : ℚ) / 2) - t0.width / 2) : ℤ) : ℚ) }
          else
            { t0 with x := ((jsRound ((rect.x : ℚ) + (rect.width : ℚ) - t0.width) : ℤ) : ℚ) }
        let t1 := { t1 with visible := core.visible }
        .ok (.text t1, 0, 1)
    else if isSingleLine then
      let t0 := makeText env style text fontName (rect.x : ℚ) (rect.y : ℚ) 0
      match applyBoldSegments env family isItalic core.textSegments text with
      | .error e => .error e
      | .ok ovs =>
        let t0 := { t0 with overrides := ovs, visible := core.visible }
        .ok (.text t0, 0, 1)
    else
      let isBlockDisplay := isBlockDisplayTest style.display
      let fixedW := if isBlockDisplay then calcFixedWidth style text.length w else 0
      let t0 := makeText env style text fontName (rect.x : ℚ) (rect.y : ℚ) fixedW
      match applyBoldSegments env family isItalic core.textSegments text with
      | .error e => .error e
      | .ok ovs =>
        let t0 := { t0 with overrides := ovs, visible := core.visible }
        .ok (.text t0, 0, 1)

/-- The `svg` branch of `buildTree`: `createNodeFromSvg` on success emits a
counted frame (resized only when its size differs from the DOM rect by more
than 1px), a parse failure or absent markup emits an uncounted grey
placeholder rectangle. -/
def buildSvg (env : Env) (core : NodeCore) (w h : ℚ) : FigmaNode × ℕ × ℕ :=
  let placeholder : FigmaNode := .rect
    { name := "svg-placeholder", width := w, height := h,
      x := (core.rect.x : ℚ), y := (core.rect.y : ℚ),
      fills := [Paint.solid { color := ⟨some (7/10), some (7/10), some (7/10)⟩,
                              opacity := some (2/5) }],
      visible := core.visible }
  match core.svgHtml with
  | some svg =>
    if env.svgParses svg then
      let sz := env.svgSize svg
      let dims := if 1 < |sz.1 - w| || 1 < |sz.2 - h| then (w, h) else sz
      (.frame { name := "svg-icon", width := dims.1, height := dims.2,
                x := (core.rect.x : ℚ), y := (core.rect.y : ℚ), fills := [],
                clipsContent := false, visible := core.visible } [], 1, 0)
    else (placeholder, 0, 0)
  | none => (placeholder, 0, 0)

/-- The `img` branch of `buildTree`: always a counted placeholder rectangle
(the corner radius it copies is not modelled). -/
def buildImg (core : NodeCore) (w h : ℚ) : FigmaNode × ℕ × ℕ :=
  (.rect { name := if truthyStr core.imageUrl then "img" else "img (placeholder)",
           width := w, height := h, x := (core.rect.x : ℚ), y := (core.rect.y : ℚ),
           fills := [Paint.solid { color := ⟨some (22/25), some (9/10), some (23/25)⟩,
                                   opacity := some 1 }],
           visible := core.visible }, 1, 0)

mutual

/-- `buildTree` from `code.ts`: one IR node becomes one Figma node (text
leaf / svg / img / container); returns the node and the (frameCount,
textCount) increments its subtree performed.  A thrown error propagates to
the caller; the container branch catches the error of each child
individually (`buildChildren`). -/
def buildTree (env : Env) : DomNodeData → Except String (FigmaNode × ℕ × ℕ)
  | .mk core children =>
    let w : ℚ := max (core.rect.width : ℚ) 1
    let h : ℚ := max (core.rect.height : ℚ) 1
    if truthyStr core.text && children.isEmpty then
      buildTextLeaf env core (core.text.getD "") w h
    else if core.tagName = "svg" then
      .ok (buildSvg env core w h)
    else if core.tagName = "img" then
      .ok (buildImg core w h)
    else
      let fw := children.foldl
        (fun acc c => max acc ((c.core.rect.x + c.core.rect.width : ℤ) : ℚ)) w
      let fh := children.foldl
        (fun acc c => max acc ((c.core.rect.y + c.core.rect.height : ℤ) : ℚ)) h
      let frame : FrameData :=
        { name := core.tagName, width := fw, height := fh,
          x := (core.rect.x : ℚ), y := (core.rect.y : ℚ),
          fills := applyFrameStyleFills core.style,
          clipsContent := applyFrameStyleClips core.style, visible := core.visible }
      let res := buildChildren env children
      .ok (.frame frame res.1, res.2.1 + 1, res.2.2)

/-- The child loop of `buildTree` (and of the message handler): each child
is built inside its own try/catch — a failing subtree is logged and
omitted, the remaining siblings are processed normally. -/
def buildChildren (env : Env) : List DomNodeData → (List FigmaNode × ℕ × ℕ)
  | [] => ([], 0, 0)
  | c :: rest =>
    let tail := buildChildren env rest
    match buildTree env c with
    | .ok r => (r.1 :: tail.1, r.2.1 + tail.2.1, r.2.2 + tail.2.2)
    | .error _ => tail

end

/-- The reply messages of `types.ts`. -/
inductive MainToUIMessage where
  | importDone (frameCount textCount : ℕ)
  | importError (error : String)
deriving Repr, DecidableEq

/-- The `import-dom` message handler of `code.ts`: build the root frame,
recurse over the root's children with a per-child catch, reply
`import-done` with the two counters.  Nothing in the handler outside the
per-child catches throws, so the `import-error` reply of its outer
try/catch is unreachable in the model. -/
def handleImport (env : Env) (data : DomNodeData) : FigmaNode × MainToUIMessage :=
  let rootW := max (data.core.rect.width : ℚ) 1
  let rootH := max (data.core.rect.height : ℚ) 1
  let res := buildChildren env data.children
  let root : FigmaNode := .frame
    { name := "HTML Import", width := rootW, height := rootH,
      x := ((jsRound (env.viewportCenter.1 - rootW / 2) : ℤ) : ℚ),
      y := ((jsRound (env.viewportCenter.2 - rootH / 2) : ℤ) : ℚ),
      fills := applyFrameStyleFills data.core.style,
      clipsContent := applyFrameStyleClips data.core.style, visible := true } res.1
  (root, .importDone res.2.1 res.2.2)

mutual

/-- Node statistics used by the tree-conservation claim, following the
branch structure of `buildTree`: (IR nodes traversed, boxed text leaves
among them, svg nodes that fall back to the uncounted placeholder).  Only
the container branch traverses children. -/
def irStats (env : Env) : DomNodeData → ℕ × ℕ × ℕ
  | .mk core children =>
    if truthyStr core.text && children.isEmpty then
      (1, if hasBorderB core.style || hasBgB core.style then 1 else 0, 0)
    else if core.tagName = "svg" then
      (1, 0,
        match core.svgHtml with
        | some svg => if env.svgParses svg then 0 else 1
        | none => 1)
    else if core.tagName = "img" then (1, 0, 0)
    else
      let r := irStatsList env children
      (1 + r.1, r.2.1, r.2.2)

/-- `irStats` summed over a child list. -/
def irStatsList (env : Env) : List DomNodeData → ℕ × ℕ × ℕ
  | [] => (0, 0, 0)
  | c :: rest =>
    let a := irStats env c
    let b := irStatsList env rest
    (a.1 + b.1, a.2.1 + b.2.1, a.2.2 + b.2.2)

end

/-- A fully-capable sandbox: every font loads and every SVG parses. -/
def envAllOk : Env :=
  { fontLoads := fun _ => true, svgParses := fun _ => true,
    svgSize := fun _ => (24, 24), measuredSize := fun _ _ _ => (10, 10),
    viewportCenter := (0, 0) }

/-- Browser-default computed style, used for concrete test nodes. -/
def baseStyle : DomStyleData :=
  { backgroundColor := "rgba(0, 0, 0, 0)", backgroundImage := "",
    color := "rgb(0, 0, 0)", fontSize := 16, fontWeight := "400",
    fontFamily := "Arial", fontStyle := "normal", lineHeight := "normal",
    textAlign := "start", letterSpacing := "normal", textDecoration := "none",
    borderTopLeftRadius := 0, borderTopRightRadius := 0,
    borderBottomRightRadius := 0, borderBottomLeftRadius := 0,
    borderTopWidth := 0, borderRightWidth := 0, borderBottomWidth := 0,
    borderLeftWidth := 0, borderColor := "rgb(0, 0, 0)", borderStyle := "none",
    opacity := 1, boxShadow := "none", overflow := "visible", display := "block",
    flexDirection := "row", alignItems := "normal", justifyContent := "normal",
    rowGap := 0, columnGap := 0, paddingTop := 0, paddingRight := 0,
    paddingBottom := 0, paddingLeft := 0, position := "static" }

/-- The counter deltas of a `buildTree` result (`none` when it threw). -/
def countsOf : Except String (FigmaNode × ℕ × ℕ) → Option (ℕ × ℕ)
  | .ok r => some (r.2.1, r.2.2)
  | .error _ => none

/-- A text leaf with a solid background: the boxed-text case. -/
def boxedTextIR : DomNodeData :=
  .mk { tagName := "span", text := some "hi", textSegments := none, imageUrl := none,
        svgHtml := none, rect := ⟨0, 0, 40, 20⟩, visible := true,
        style := { baseStyle with backgroundColor := "rgb(255, 0, 0)" } } []

/-- The text node a text-leaf build emits (directly, or as the single child
of its boxed wrapper frame). -/
def emittedTextOf : FigmaNode → Option TextNode
  | .text t => some t
  | .frame _ [.text t] => some t
  | _ => none

/-- Shape test: the result of a boxed text leaf (a frame wrapping one text
node). -/
def boxedShape : FigmaNode → Bool
  | .frame _ [.text _] => true
  | _ => false

/-- The emitted node of a `buildTree` result. -/
def builtNodeOf : Except String (FigmaNode × ℕ × ℕ) → Option FigmaNode
  | .ok r => some r.1
  | .error _ => none

/-- A sandbox in which no font ever loads (exhausts every font ladder). -/
def envNoFonts : Env :=
  { fontLoads := fun _ => false, svgParses := fun _ => true,
    svgSize := fun _ => (24, 24), measuredSize := fun _ _ _ => (10, 10),
    viewportCenter := (0, 0) }

/-- Text leaf whose `backgroundColor` is an `oklch()` color that escaped
normalization: unparseable, yet not "transparent". -/
def oklchTextIR : DomNodeData :=
  .mk { tagName := "span", text := some "hi", textSegments := none, imageUrl := none,
        svgHtml := none, rect := ⟨0, 0, 40, 20⟩, visible := true,
        style := { baseStyle with backgroundColor := "oklch(0.5 0.1 20)" } } []

/-- Boxed text leaf of height 55 with fontSize 16 (55 < 16 · 3.5 = 56). -/
def textLeaf55 : NodeCore :=
  { tagName := "button", text := some "Go", textSegments := none, imageUrl := none,
    svgHtml := none, rect := ⟨0, 0, 200, 55⟩, visible := true,
    style := { baseStyle with backgroundColor := "rgb(0, 0, 255)" } }

/-- Boxed text leaf of height exactly 56 = 16 · 3.5. -/
def textLeaf56 : NodeCore :=
  { tagName := "button", text := some "Go", textSegments := none, imageUrl := none,
    svgHtml := none, rect := ⟨0, 0, 200, 56⟩, visible := true,
    style := { baseStyle with backgroundColor := "rgb(0, 0, 255)" } }

/-- A plain text leaf (no border, no background). -/
def plainTextChild : DomNodeData :=
  .mk { tagName := "span", text := some "hello", textSegments := none, imageUrl := none,
        svgHtml := none, rect := ⟨0, 0, 60, 20⟩, visible := true, style := baseStyle } []

/-- An image node. -/
def imgChild : DomNodeData :=
  .mk { tagName := "img", text := none, textSegments := none,
        imageUrl := some "http://x/y.png", svgHtml := none, rect := ⟨0, 30, 60, 40⟩,
        visible := true, style := baseStyle } []

/-- A container core (a `div`). -/
def divCore : NodeCore :=
  { tagName := "div", text := none, textSegments := none, imageUrl := none,
    svgHtml := none, rect := ⟨0, 0, 100, 100⟩, visible := true, style := baseStyle }

-- ─── The Extractor (domSerializer.ts) ────────────────────────────

/-- A computed-style declaration as the extractor reads it: every property
is the string `getComputedStyle` returns. -/
structure CS where
  display : String
  visibility : String
  position : String
  content : String
  width : String
  height : String
  left : String
  top : String
  backgroundColor : String
  backgroundImage : String
  color : String
  fontSize : String
  fontWeight : String
  fontFamily : String
  fontStyle : String
  lineHeight : String
  textAlign : String
  letterSpacing : String
  textDecoration : String
  borderTopLeftRadius : String
  borderTopRightRadius : String
  borderBottomRightRadius : String
  borderBottomLeftRadius : String
  borderTopWidth : String
  borderRightWidth : String
  borderBottomWidth : String
  borderLeftWidth : String
  borderTopColor : String
  borderRightColor : String
  borderBottomColor : String
  borderLeftColor : String
  borderColor : String
  borderTopStyle : String
  borderRightStyle : String
  borderBottomStyle : String
  borderLeftStyle : String
  borderStyle : String
  opacity : String
  boxShadow : String
  overflow : String
  flexDirection : String
  alignItems : String
  justifyContent : String
  rowGap : String
  columnGap : String
  paddingTop : String
  paddingRight : String
  paddingBottom : String
  paddingLeft : String
deriving Repr, DecidableEq

/-- A `getBoundingClientRect` result (unrounded browser geometry). -/
structure QRect where
  left : ℚ
  top : ℚ
  width : ℚ
  height : ℚ
deriving Repr, DecidableEq

/-- The data the extractor reads off one DOM element: tag, computed style,
measured bounding rect (for `position:fixed` elements this is the rect
after the temporary fixed→absolute conversion the code performs around
measurement), the two pseudo-element computed styles, the
`::placeholder` computed style (`none` models a throwing
`getComputedStyle`), form value / placeholder attribute, image `src`, and
the `serializeSvg` serialization of the subtree (an opaque input here:
`serializeSvg` is pure DOM-cloning with no bearing on any claim). -/
structure ElemData where
  tagName : String
  cs : CS
  rect : QRect
  pseudoBefore : CS
  pseudoAfter : CS
  placeholderCs : Option CS
  value : Option String
  placeholderAttr : Option String
  src : Option String
  svgSerialized : String

/-- A DOM node: a text node (with its Range-measured rect) or an element. -/
inductive DomNode where
  | textNode (content : String) (rect : QRect)
  | elem (data : ElemData) (kids : List DomNode)

/-- The browser capability the Color Normalizer uses: the single-pixel
canvas round-trip, returning the sampled RGBA bytes (`none` models a
thrown exception). -/
structure ExtractEnv where
  canvas : String → Option (ℕ × ℕ × ℕ × ℕ)

/-- `SKIP_TAGS` from `domSerializer.ts`. -/
def SKIP_TAGS (t : String) : Bool :=
  t = "script" || t = "style" || t = "meta" || t = "link" || t = "head" ||
  t = "noscript" || t = "br" || t = "template" || t = "canvas" ||
  t = "video" || t = "audio"

/-- `INLINE_TEXT_TAGS` from `domSerializer.ts`. -/
def INLINE_TEXT_TAGS (t : String) : Bool :=
  t = "strong" || t = "em" || t = "b" || t = "i" || t = "a" || t = "span" ||
  t = "small" || t = "mark" || t = "sub" || t = "sup" || t = "abbr" ||
  t = "cite" || t = "code" || t = "kbd" || t = "label" || t = "time" ||
  t = "u" || t = "s" || t = "del" || t = "ins"

/-- The shortcut regex `/^rgba?\(\s*\d+\s*,/` of `normalizeCssColor`
(prefix match: integer first channel followed by a comma). -/
def legacyPrefixTest (css : String) : Bool :=
  match matchRgbHead css.toList with
  | some rest =>
    let r := eatWs rest
    let ds := r.takeWhile Char.isDigit
    if ds.isEmpty then false
    else
      match eatWs (r.dropWhile Char.isDigit) with
      | ',' :: _ => true
      | _ => false
  | none => false

/-- `+(a/255).toFixed(3)` for the alpha byte: round to 3 decimals, drop
trailing zeros (the exact float artifacts of `toFixed` are idealized as
exact rounding; no claim depends on the digits). -/
def fmtAlpha (a : ℕ) : String :=
  let n := (2000 * a + 255) / 510
  if n = 0 then "0"
  else
    let ds := [Char.ofNat (48 + n / 100), Char.ofNat (48 + n / 10 % 10),
               Char.ofNat (48 + n % 10)]
    let trimmed := (ds.reverse.dropWhile (fun c => c = '0')).reverse
    if trimmed.isEmpty then "0" else String.mk ('0' :: '.' :: trimmed)

/-- `normalizeCssColor` from `domSerializer.ts`: trivial values and
already-legacy forms pass through; otherwise the canvas round-trip
re-encodes the sampled pixel as legacy `rgb()`/`rgba()` (alpha 0 becomes
`"transparent"`), and an exception returns the input unchanged. -/
def normalizeCssColor (env : ExtractEnv) (css : String) : String :=
  if css = "" || css = "transparent" || css = "none" then css
  else if legacyPrefixTest css then css
  else
    match env.canvas css with
    | none => css
    | some (r, g, b, a) =>
      if a = 0 then "transparent"
      else if a = 255 then
        "rgb(" ++ toString r ++ ", " ++ toString g ++ ", " ++ toString b ++ ")"
      else
        "rgba(" ++ toString r ++ ", " ++ toString g ++ ", " ++ toString b ++ ", " ++
          fmtAlpha a ++ ")"

/-- `effectiveBorderColor` from `domSerializer.ts`: first normalized
non-empty, non-transparent side colour, falling back to the aggregate. -/
def effectiveBorderColor (env : ExtractEnv) (cs : CS) : String :=
  let sides := [cs.borderTopColor, cs.borderRightColor, cs.borderBottomColor,
                cs.borderLeftColor]
  match sides.findSome? (fun v =>
      let n := normalizeCssColor env v
      if n ≠ "" && n ≠ "transparent" then some n else none) with
  | some n => n
  | none => normalizeCssColor env cs.borderColor

/-- `effectiveBorderStyle` from `domSerializer.ts`. -/
def effectiveBorderStyle (cs : CS) : String :=
  match [cs.borderTopStyle, cs.borderRightStyle, cs.borderBottomStyle,
         cs.borderLeftStyle].findSome?
      (fun v => if v ≠ "" && v ≠ "none" then some v else none) with
  | some v => v
  | none => cs.borderStyle

/-- `extractStyle` from `domSerializer.ts`. -/
def extractStyle (env : ExtractEnv) (cs : CS) : DomStyleData :=
  { backgroundColor := normalizeCssColor env cs.backgroundColor,
    backgroundImage := cs.backgroundImage,
    color := normalizeCssColor env cs.color,
    fontSize := let v := pf cs.fontSize; if v = 0 then 14 else v,
    fontWeight := cs.fontWeight,
    fontFamily := cs.fontFamily,
    fontStyle := cs.fontStyle,
    lineHeight := cs.lineHeight,
    textAlign := cs.textAlign,
    letterSpacing := cs.letterSpacing,
    textDecoration := cs.textDecoration,
    borderTopLeftRadius := pf cs.borderTopLeftRadius,
    borderTopRightRadius := pf cs.borderTopRightRadius,
    borderBottomRightRadius := pf cs.borderBottomRightRadius,
    borderBottomLeftRadius := pf cs.borderBottomLeftRadius,
    borderTopWidth := pf cs.borderTopWidth,
    borderRightWidth := pf cs.borderRightWidth,
    borderBottomWidth := pf cs.borderBottomWidth,
    borderLeftWidth := pf cs.borderLeftWidth,
    borderColor := effectiveBorderColor env cs,
    borderStyle := effectiveBorderStyle cs,
    opacity := let v := pf cs.opacity; if v = 0 then 1 else v,
    boxShadow := cs.boxShadow,
    overflow := cs.overflow,
    display := cs.display,
    flexDirection := cs.flexDirection,
    alignItems := cs.alignItems,
    justifyContent := cs.justifyContent,
    rowGap := pf cs.rowGap,
    columnGap := pf cs.columnGap,
    paddingTop := pf cs.paddingTop,
    paddingRight := pf cs.paddingRight,
    paddingBottom := pf cs.paddingBottom,
    paddingLeft := pf cs.paddingLeft,
    position := cs.position }

/-- The regex `/^"(.*)"$/` on a pseudo-element `content` value (`.` does
not cross a line break). -/
def contentQuoted (content : String) : Option String :=
  match content.toList with
  | '"' :: rest =>
    if 1 ≤ rest.length && rest.getLast? = some '"' then
      let inner := rest.dropLast
      if inner.all (fun c => !(c = '\n' || c = '\r')) then some (String.mk inner)
      else none
    else none
  | _ => none

/-- `extractPseudoElement` from `domSerializer.ts` (the try/catch has no
effect in the model — nothing here throws). -/
def extractPseudoElement (env : ExtractEnv) (hostCs : CS) (pseudoName : String)
    (pcs : CS) : Option DomNodeData :=
  let content := pcs.content
  if content = "" || content = "none" || content = "normal" then none
  else if pcs.display = "none" then none
  else
    let w := pf pcs.width
    let h := pf pcs.height
    if w < 1 || h < 1 then none
    else
      let xy : ℚ × ℚ :=
        if pcs.position = "absolute" || pcs.position = "fixed" then
          let bl := pf hostCs.borderLeftWidth
          let bt := pf hostCs.borderTopWidth
          (bl + (if pcs.left ≠ "auto" then pf pcs.left else 0),
           bt + (if pcs.top ≠ "auto" then pf pcs.top else 0))
        else (0, 0)
      let text : Option String :=
        match contentQuoted content with
        | some inner => if inner ≠ "" then some inner else none
        | none => none
      some (.mk { tagName := pseudoName, text := text, textSegments := none,
                  imageUrl := none, svgHtml := none,
                  rect := ⟨jsRound xy.1, jsRound xy.2, jsRound w, jsRound h⟩,
                  visible := true, style := extractStyle env pcs } [])

mutual

/-- JS `Node.textContent` (concatenation of all descendant text nodes). -/
def textContent : DomNode → String
  | .textNode s _ => s
  | .elem _ kids => textContentList kids

/-- `textContent` over a child list. -/
def textContentList : List DomNode → String
  | [] => ""
  | k :: ks => textContent k ++ textContentList ks

end

/-- `extractTextSegments` from `domSerializer.ts`: per child node, its text
plus a bold flag for element children with resolved weight ≥ 700. -/
def extractTextSegments (kids : List DomNode) : List TextSegment :=
  kids.filterMap (fun node =>
    match node with
    | .textNode t _ => if t ≠ "" then some { text := t } else none
    | .elem d kk =>
      let isBold :=
        match jsParseInt d.cs.fontWeight with
        | some n => decide (700 ≤ n)
        | none => false
      let childText := textContent (.elem d kk)
      if childText ≠ "" then some { text := childText, bold := isBold } else none)

/-- The zeroed inherited style given to an extracted `#text` run (both in
the mixed-content walk and in the text demotion): backgrounds, borders and
padding are stripped because the parent frame already carries them. -/
def strippedTextStyle (env : ExtractEnv) (cs : CS) : DomStyleData :=
  { extractStyle env cs with
    backgroundColor := "transparent", backgroundImage := "",
    borderTopWidth := 0, borderRightWidth := 0, borderBottomWidth := 0,
    borderLeftWidth := 0, borderColor := "transparent", borderStyle := "none",
    paddingTop := 0, paddingRight := 0, paddingBottom := 0, paddingLeft := 0 }

/-- The `#text` IR node for one significant text run of the mixed-content
walk (measured by the Range API). -/
def mkTextRunNode (env : ExtractEnv) (cs : CS) (rect trect : QRect)
    (trimmed : String) : DomNodeData :=
  .mk { tagName := "#text", text := some trimmed, textSegments := none,
        imageUrl := none, svgHtml := none,
        rect := ⟨jsRound (trect.left - rect.left), jsRound (trect.top - rect.top),
                 jsRound trect.width, jsRound trect.height⟩,
        visible := true, style := strippedTextStyle env cs } []

/-- Lines 344–375 of `domSerializer.ts`: when a (truthy) text and a
non-empty children list would coexist, the text (with its segments) is
demoted into a synthetic `"#text"` child positioned inside the padding
box, and the node's own text is cleared. -/
def demoteText (env : ExtractEnv) (cs : CS) (rect : QRect) (text : Option String)
    (textSegments : Option (List TextSegment)) (children : List DomNodeData) :
    Option String × Option (List TextSegment) × List DomNodeData :=
  if truthyStr text && !children.isEmpty then
    let pl := pf cs.paddingLeft
    let pt := pf cs.paddingTop
    let core : NodeCore :=
      { tagName := "#text", text := text, textSegments := textSegments,
        imageUrl := none, svgHtml := none,
        rect := ⟨jsRound pl, jsRound pt,
                 jsRound (rect.width - pl - pf cs.paddingRight),
                 jsRound (rect.height - pt - pf cs.paddingBottom)⟩,
        visible := true, style := strippedTextStyle env cs }
    (none, none, children ++ [.mk core []])
  else (text, textSegments, children)

/-- Lines 338–404 of `domSerializer.ts` after the children have been
serialized: prepend/append the pseudo-element children, demote a coexisting
text, apply the `::placeholder` colour, and build the returned record. -/
def assembleNode (env : ExtractEnv) (d : ElemData) (parentRect : QRect) (tag : String)
    (text1 : Option String) (textSegments0 : Option (List TextSegment))
    (isPlaceholder : Bool) (imageUrl : Option String)
    (children0 : List DomNodeData) : DomNodeData :=
  let cs := d.cs
  let rect := d.rect
  let children1 :=
    match extractPseudoElement env cs "::before" d.pseudoBefore with
    | some p => p :: children0
    | none => children0
  let children2 :=
    match extractPseudoElement env cs "::after" d.pseudoAfter with
    | some p => children1 ++ [p]
    | none => children1
  let dres := demoteText env cs rect text1 textSegments0 children2
  let nodeStyle := extractStyle env cs
  let nodeStyle :=
    if isPlaceholder then
      match d.placeholderCs with
      | some phCs =>
        let phColor := normalizeCssColor env phCs.color
        if phColor ≠ "" && phColor ≠ "transparent" then
          { nodeStyle with color := phColor }
        else nodeStyle
      | none => nodeStyle
    else nodeStyle
  .mk { tagName := tag, text := dres.1, textSegments := dres.2.1,
        imageUrl := imageUrl, svgHtml := none,
        rect := ⟨jsRound (rect.left - parentRect.left),
                 jsRound (rect.top - parentRect.top),
                 jsRound rect.width, jsRound rect.height⟩,
        visible := cs.visibility ≠ "hidden",
        style := nodeStyle } dres.2.2

/-- `hasSignificantText` in `serializeDom`: some direct text child whose
trim is non-empty. -/
def hasSignificantText (kids : List DomNode) : Bool :=
  kids.any (fun k =>
    match k with
    | .textNode t _ => (jsTrim t).length ≠ 0
    | .elem _ _ => false)

/-- `hasBr` in `serializeDom`: some `<br>` element child. -/
def hasBr (kids : List DomNode) : Bool :=
  kids.any (fun k =>
    match k with
    | .elem dd _ => lowerStr dd.tagName = "br"
    | .textNode _ _ => false)

/-- `elementChildren.length === 0` in `serializeDom` (non-skip element
children only). -/
def noElementChildren (kids : List DomNode) : Bool :=
  kids.all (fun k =>
    match k with
    | .elem dd _ => SKIP_TAGS (lowerStr dd.tagName)
    | .textNode _ _ => true)

/-- `allInline` in `serializeDom`: every element child is a skip tag or an
inline text tag. -/
def allInlineKids (kids : List DomNode) : Bool :=
  kids.all (fun k =>
    match k with
    | .elem dd _ =>
      SKIP_TAGS (lowerStr dd.tagName) || INLINE_TEXT_TAGS (lowerStr dd.tagName)
    | .textNode _ _ => true)

/-- The direct-text decision of `serializeDom` (lines 238–257): the trimmed
`textContent` as own text when there are no element children and no `<br>`,
or — mixed inline content — the same text plus `extractTextSegments`. -/
def directTextAndSegs (kids : List DomNode) :
    Option String × Option (List TextSegment) :=
  if noElementChildren kids && !hasBr kids then
    (let t := jsTrim (textContentList kids)
     if t ≠ "" then some t else none, none)
  else if hasSignificantText kids then
    if allInlineKids kids && !hasBr kids then
      let t := jsTrim (textContentList kids)
      if t ≠ "" then (some t, some (extractTextSegments kids)) else (none, none)
    else (none, none)
  else (none, none)

/-- The form-control value/placeholder fallback of `serializeDom`: for a
textless `input`/`textarea`/`select` the trimmed `value` or, failing that,
the trimmed `placeholder` attribute (flagged as placeholder). -/
def placeholderText (tag : String) (d : ElemData) (text0 : Option String) :
    Option String × Bool :=
  let valT := d.value.map jsTrim
  let phT := d.placeholderAttr.map jsTrim
  if !truthyStr text0 && (tag = "input" || tag = "textarea" || tag = "select") then
    if truthyStr valT then (valT, false)
    else if truthyStr phT then (phT, true)
    else (text0, false)
  else (text0, false)

/-- `imageUrl` in `serializeDom`: the non-empty `src` of an `img`. -/
def imgUrlOf (tag : String) (d : ElemData) : Option String :=
  if tag = "img" then
    match d.src with
    | some s => if s ≠ "" then some s else none
    | none => none
  else none

mutual

/-- `serializeDom` from `domSerializer.ts`.  The function is only ever
called on elements; a bare text node yields `none`.  The temporary
fixed→absolute conversion only affects the measured rect, which the model
takes as the element's given `rect`. -/
def serializeDom (env : ExtractEnv) : DomNode → QRect → Bool → Option DomNodeData
  | .textNode _ _, _, _ => none
  | .elem d kids, parentRect, _isRoot =>
    let tag := lowerStr d.tagName
    if SKIP_TAGS tag then none
    else
      let cs := d.cs
      if cs.display = "none" then none
      else if cs.visibility = "hidden" then none
      else
        let rect := d.rect
        if rect.width < 1 || rect.height < 1 then none
        else if tag = "svg" then
          some (.mk { tagName := "svg", text := none, textSegments := none,
                      imageUrl := none, svgHtml := some d.svgSerialized,
                      rect := ⟨jsRound (rect.left - parentRect.left),
                               jsRound (rect.top - parentRect.top),
                               jsRound rect.width, jsRound rect.height⟩,
                      visible := true, style := extractStyle env cs } [])
        else
          let tts := directTextAndSegs kids
          let tp := placeholderText tag d tts.1
          let children0 : List DomNodeData :=
            if !truthyStr tp.1 then
              if hasSignificantText kids && (!noElementChildren kids || hasBr kids) then
                serializeMixed env kids rect cs
              else serializePlain env kids rect
            else []
          some (assembleNode env d parentRect tag tp.1 tts.2 tp.2 (imgUrlOf tag d)
            children0)

/-- The mixed-content `childNodes` walk (lines 282–329): significant text
runs become `#text` leaves with their Range-measured geometry, element
children recurse, skip tags are dropped. -/
def serializeMixed (env : ExtractEnv) : List DomNode → QRect → CS → List DomNodeData
  | [], _, _ => []
  | k :: ks, rect, cs =>
    (match k with
     | .textNode content trect =>
       let trimmed := jsTrim content
       if trimmed = "" then []
       else if trect.width < 1 || trect.height < 1 then []
       else [mkTextRunNode env cs rect trect trimmed]
     | .elem dd kk =>
       if SKIP_TAGS (lowerStr dd.tagName) then []
       else (serializeDom env (.elem dd kk) rect false).toList) ++
    serializeMixed env ks rect cs

/-- The plain element-children walk (lines 330–335): the loop over
`elementChildren` (non-skip element children), recursing into each. -/
def serializePlain (env : ExtractEnv) : List DomNode → QRect → List DomNodeData
  | [], _ => []
  | k :: ks, rect =>
    (match k with
     | .textNode _ _ => []
     | .elem dd kk =>
       if SKIP_TAGS (lowerStr dd.tagName) then []
       else (serializeDom env (.elem dd kk) rect false).toList) ++
    serializePlain env ks rect

end

mutual

/-- The claimed IR invariant: no node carries both a non-empty `text` and a
non-empty `children` list, recursively. -/
def goodNode : DomNodeData → Bool
  | .mk core children => (!truthyStr core.text || children.isEmpty) && goodList children

/-- `goodNode` over a list. -/
def goodList : List DomNodeData → Bool
  | [] => true
  | c :: cs => goodNode c && goodList cs

end

/-- A plain computed style (the browser defaults for an unstyled block
element), used to exercise the extractor on a concrete DOM. -/
def baseCS : CS :=
  { display := "block", visibility := "visible", position := "static",
    content := "none", width := "auto", height := "auto",
    left := "auto", top := "auto",
    backgroundColor := "rgba(0, 0, 0, 0)", backgroundImage := "none",
    color := "rgb(0, 0, 0)", fontSize := "16px", fontWeight := "400",
    fontFamily := "Arial", fontStyle := "normal", lineHeight := "normal",
    textAlign := "start", letterSpacing := "normal",
    textDecoration := "none solid rgb(0, 0, 0)",
    borderTopLeftRadius := "0px", borderTopRightRadius := "0px",
    borderBottomRightRadius := "0px", borderBottomLeftRadius := "0px",
    borderTopWidth := "0px", borderRightWidth := "0px",
    borderBottomWidth := "0px", borderLeftWidth := "0px",
    borderTopColor := "rgb(0, 0, 0)", borderRightColor := "rgb(0, 0, 0)",
    borderBottomColor := "rgb(0, 0, 0)", borderLeftColor := "rgb(0, 0, 0)",
    borderColor := "rgb(0, 0, 0)",
    borderTopStyle := "none", borderRightStyle := "none",
    borderBottomStyle := "none", borderLeftStyle := "none",
    borderStyle := "none", opacity := "1", boxShadow := "none",
    overflow := "visible", flexDirection := "row", alignItems := "normal",
    justifyContent := "normal", rowGap := "normal", columnGap := "normal",
    paddingTop := "0px", paddingRight := "0px", paddingBottom := "0px",
    paddingLeft := "0px" }

/-- A rendered `::before` pseudo-element style with quoted content. -/
def bulletPseudoCS : CS :=
  { baseCS with content := "\"*\"", width := "8px", height := "8px",
                display := "inline-block" }

/-- An extraction environment whose canvas round-trip always throws (all
colours in the fixtures are already legacy-form, so it is never needed). -/
def envNoCanvas : ExtractEnv := { canvas := fun _ => none }

/-- A `div` with one direct text child and a rendered `::before`
pseudo-element: direct text and a pseudo child coexist, so the extractor
must demote the text. -/
def demoElem : DomNode :=
  .elem { tagName := "DIV", cs := baseCS, rect := ⟨0, 0, 100, 40⟩,
          pseudoBefore := bulletPseudoCS, pseudoAfter := baseCS,
          placeholderCs := none, value := none, placeholderAttr := none,
          src := none, svgSerialized := "" }
    [.textNode "Hello" ⟨2, 3, 50, 20⟩]

/-- A minimal already-extracted child node, used to exercise the text
demotion step directly. -/
def demoChildLeaf : DomNodeData :=
  .mk { tagName := "span", text := none, textSegments := none,
        imageUrl := none, svgHtml := none, rect := ⟨0, 0, 10, 10⟩,
        visible := true, style := strippedTextStyle envNoCanvas baseCS } []

-- ─── Claims C3, C4, C5, C6, C8 ───────────────────────────────────

/-- C3: for every CSS color string whose parsed alpha channel is below 0.01,
`toSolidPaint` returns no paint; for every parseable color with alpha at
least 0.01, `toSolidPaint` returns a solid paint carrying that color with
the alpha as opacity. -/
theorem c3_alpha_threshold (css : String) (c : ParsedColor) (a : ℚ)
    (hp : parseColor css = some c) (ha : c.a = some a) :
    (a < 1/100 → toSolidPaint css = none) ∧
    (1/100 ≤ a → toSolidPaint css = some { color := c.rgb, opacity := c.a }) := by
  have hm : toSolidPaint css =
      if jLt c.a (1/100) then none else some { color := c.rgb, opacity := c.a } := by
    unfold toSolidPaint
    rw [hp]
  constructor
  · intro h
    have hb : jLt c.a (1/100) = true := by
      rw [ha]
      exact decide_eq_true h
    rw [hm, hb]
    rfl
  · intro h
    have hb : jLt c.a (1/100) = false := by
      rw [ha]
      exact decide_eq_false (not_lt.2 h)
    rw [hm, hb]
    rfl

unseal Rat.add Rat.mul Rat.inv Rat.sub in
theorem c3_alpha_threshold_witness :
    toSolidPaint "rgba(10, 20, 30, 0.005)" = none ∧
    toSolidPaint "rgba(255, 0, 0, 0.5)" =
      some { color := ⟨some 1, some 0, some 0⟩, opacity := some (1/2) } :=
  ⟨(c3_alpha_threshold "rgba(10, 20, 30, 0.005)"
      ⟨⟨some (2/51), some (4/51), some (2/17)⟩, some (1/200)⟩ (1/200)
      (by decide) rfl).1 (by norm_num),
   (c3_alpha_threshold "rgba(255, 0, 0, 0.5)"
      ⟨⟨some 1, some 0, some 0⟩, some (1/2)⟩ (1/2)
      (by decide) rfl).2 (by norm_num)⟩

/-- C4 (code bug): the claimed bucketing maps 400 to "Regular", but the
threshold chain of `weightToFigmaStyle` has no `w ≥ 400` branch, so every
weight in [300, 500) — including the CSS default 400 — lands in "Light".
All other buckets behave as claimed, as does the italic suffix. -/
theorem c4_weight400_bucketing_bug :
    weightToFigmaStyle "400" false = "Light" ∧
    weightToFigmaStyle "400" false ≠ "Regular" ∧
    weightToFigmaStyle "450" false = "Light" ∧
    weightToFigmaStyle "100" false = "Thin" ∧
    weightToFigmaStyle "200" false = "ExtraLight" ∧
    weightToFigmaStyle "300" false = "Light" ∧
    weightToFigmaStyle "500" false = "Medium" ∧
    weightToFigmaStyle "600" false = "SemiBold" ∧
    weightToFigmaStyle "700" false = "Bold" ∧
    weightToFigmaStyle "800" false = "ExtraBold" ∧
    weightToFigmaStyle "900" false = "Black" ∧
    weightToFigmaStyle "700" true = "Bold Italic" ∧
    weightToFigmaStyle "400" true = "Light Italic" := by
  decide

unseal Rat.add Rat.mul Rat.inv Rat.sub in
/-- C5: `parseLinearGradient` converts the gradient angle θ to the affine
transform `[[sinθ, cosθ, 0.5(1−sinθ)], [−cosθ, sinθ, 0.5(1+cosθ)]]`, mapping
the 0%-stop to `(0.5 − 0.5 sinθ, 0.5 + 0.5 cosθ)` and the 100%-stop to
`(0.5 + 0.5 sinθ, 0.5 − 0.5 cosθ)`; at 0deg/90deg/180deg/270deg the axis
runs bottom→top, left→right, top→bottom, right→left (y grows downward), and
the angle defaults to 180 degrees when no angle or direction is given. -/
theorem c5_gradient_transform :
    (∀ θ : ℝ,
      gradientTransform θ =
        ((Real.sin (θ * Real.pi / 180), Real.cos (θ * Real.pi / 180),
          0.5 * (1 - Real.sin (θ * Real.pi / 180))),
         (-Real.cos (θ * Real.pi / 180), Real.sin (θ * Real.pi / 180),
          0.5 * (1 + Real.cos (θ * Real.pi / 180)))) ∧
      applyTransform (gradientTransform θ) (0, 0) =
        (0.5 - 0.5 * Real.sin (θ * Real.pi / 180),
         0.5 + 0.5 * Real.cos (θ * Real.pi / 180)) ∧
      applyTransform (gradientTransform θ) (1, 0) =
        (0.5 + 0.5 * Real.sin (θ * Real.pi / 180),
         0.5 - 0.5 * Real.cos (θ * Real.pi / 180))) ∧
    (applyTransform (gradientTransform 0) (0, 0) = (0.5, 1) ∧
     applyTransform (gradientTransform 0) (1, 0) = (0.5, 0)) ∧
    (applyTransform (gradientTransform 90) (0, 0) = (0, 0.5) ∧
     applyTransform (gradientTransform 90) (1, 0) = (1, 0.5)) ∧
    (applyTransform (gradientTransform 180) (0, 0) = (0.5, 0) ∧
     applyTransform (gradientTransform 180) (1, 0) = (0.5, 1)) ∧
    (applyTransform (gradientTransform 270) (0, 0) = (1, 0.5) ∧
     applyTransform (gradientTransform 270) (1, 0) = (0, 0.5)) ∧
    (parseLinearGradient "linear-gradient(rgb(255, 0, 0), rgb(0, 0, 255))").map
      GradientPaintData.angleDeg = some (some 180) := by
  have h0 : (0 : ℝ) * Real.pi / 180 = 0 := by ring
  have h90 : (90 : ℝ) * Real.pi / 180 = Real.pi / 2 := by ring
  have h180 : (180 : ℝ) * Real.pi / 180 = Real.pi := by ring
  have h270 : (270 : ℝ) * Real.pi / 180 = Real.pi + Real.pi / 2 := by ring
  refine ⟨fun θ => ⟨rfl, ?_, ?_⟩, ⟨?_, ?_⟩, ⟨?_, ?_⟩, ⟨?_, ?_⟩, ⟨?_, ?_⟩, by decide⟩
  · simp only [applyTransform, gradientTransform, Prod.mk.injEq]
    constructor <;> ring
  · simp only [applyTransform, gradientTransform, Prod.mk.injEq]
    constructor <;> ring
  all_goals
    simp only [applyTransform, gradientTransform, h0, h90, h180, h270,
      Real.sin_zero, Real.cos_zero, Real.sin_pi_div_two, Real.cos_pi_div_two,
      Real.sin_pi, Real.cos_pi, Real.sin_add, Real.cos_add, Prod.mk.injEq]
  all_goals constructor <;> norm_num

/-- C6 counterexample: the claim asserts that the literal input
`"linear-gradient(0deg, red, blue)"` yields two stops, but keyword colors
are not recognised by `parseColor` / `parseHexColor`, so both stop
arguments are skipped and the parse returns null. -/
theorem c6_keyword_stops_counterexample :
    parseLinearGradient "linear-gradient(0deg, red, blue)" = none := by
  decide

unseal Rat.add Rat.mul Rat.inv Rat.sub in
/-- C6 (amended): a color stop without an explicit percentage is assigned
the evenly spaced position `index/(count−1)` (guarded for a single stop);
the two-stop example holds once the keyword colors are written in a syntax
the reconstructor parses, e.g.
`"linear-gradient(0deg, rgb(255, 0, 0), rgb(0, 0, 255))"`. -/
theorem c6_stop_inference_amended :
    (∀ (count i : ℕ) (part : String) (stop : ColorStop),
        execPosMatch (jsTrim part).toList = none →
        parseStop count i part = some stop →
        stop.position = some ((i : ℚ) / ((max (count - 1) 1 : ℕ) : ℚ))) ∧
    parseLinearGradient "linear-gradient(0deg, rgb(255, 0, 0), rgb(0, 0, 255))" =
      some { angleDeg := some 0,
             gradientStops := [
               { position := some 0, color := ⟨some 1, some 0, some 0, some 1⟩ },
               { position := some 1, color := ⟨some 0, some 0, some 1, some 1⟩ }] } := by
  constructor
  · intro count i part stop hm hs
    simp only [parseStop, hm] at hs
    rcases hpc : parseColor (jsTrim part) with _ | c
    · rw [hpc] at hs
      rcases hph : parseHexColor (jsTrim part) with _ | c2
      · rw [hph] at hs
        simp at hs
      · rw [hph] at hs
        simp only [Option.some.injEq] at hs
        rw [← hs]
    · rw [hpc] at hs
      simp only [Option.some.injEq] at hs
      rw [← hs]
  · decide

unseal Rat.add Rat.mul Rat.inv Rat.sub in
theorem c6_stop_inference_witness :
    ({ position := some 1, color := ⟨some 1, some 0, some 0, some 1⟩ } : ColorStop).position =
      some ((2 : ℚ) / ((max (3 - 1) 1 : ℕ) : ℚ)) :=
  c6_stop_inference_amended.1 3 2 " rgb(255, 0, 0)"
    { position := some 1, color := ⟨some 1, some 0, some 0, some 1⟩ }
    (by decide) (by decide)

unseal Rat.add Rat.mul Rat.inv Rat.sub in
/-- C8: `parseLinearGradient` never returns a paint with fewer than 2 stops
(stop arguments whose color cannot be parsed are skipped, not errors — the
third conjunct shows an unparseable `oklch()` stop being dropped while the
remaining two stops survive), and in `applyFrameStyle` a `backgroundImage`
whose gradient parse returns null falls back to the solid `backgroundColor`
fill, or to no fill when that color yields no paint; the fill computation is
total, so no parse failure surfaces as an error. -/
theorem c8_parse_failure_fallback :
    (∀ css g, parseLinearGradient css = some g → 2 ≤ g.gradientStops.length) ∧
    (∀ s : DomStyleData, s.backgroundImage ≠ "" → s.backgroundImage ≠ "none" →
        parseLinearGradient s.backgroundImage = none →
        applyFrameStyleFills s =
          (match toSolidPaint s.backgroundColor with
           | some p => [Paint.solid p]
           | none => [])) ∧
    (parseLinearGradient "linear-gradient(90deg, oklch(0.5 0.1 20), #ff0000, #0000ff)").map
      (fun g => g.gradientStops.map ColorStop.position) = some [some (1/2), some 1] := by
  refine ⟨?_, ?_, ?_⟩
  · intro css g h
    unfold parseLinearGradient at h
    rcases hh : matchLinearGradientHead css with _ | inner
    · rw [hh] at h
      simp at h
    · rw [hh] at h
      simp only at h
      split at h
      · simp at h
      · split at h
        · simp at h
        · rename_i hlen
          simp only [Option.some.injEq] at h
          rw [← h]
          exact Nat.not_lt.mp hlen
  · intro s h1 h2 h3
    unfold applyFrameStyleFills
    rw [if_pos (by simp [h1, h2])]
    rw [h3]
  · decide

unseal Rat.add Rat.mul Rat.inv Rat.sub in
theorem c8_parse_failure_fallback_witness :
    2 ≤ ({ angleDeg := some 0,
           gradientStops := [
             { position := some 0, color := ⟨some 1, some 0, some 0, some 1⟩ },
             { position := some 1, color := ⟨some 0, some 0, some 1, some 1⟩ }] } :
           GradientPaintData).gradientStops.length ∧
    applyFrameStyleFills
      { backgroundColor := "rgb(0, 128, 0)", backgroundImage := "linear-gradient(0deg, red, blue)",
        color := "", fontSize := 14, fontWeight := "400", fontFamily := "", fontStyle := "normal",
        lineHeight := "normal", textAlign := "left", letterSpacing := "normal",
        textDecoration := "none", borderTopLeftRadius := 0, borderTopRightRadius := 0,
        borderBottomRightRadius := 0, borderBottomLeftRadius := 0, borderTopWidth := 0,
        borderRightWidth := 0, borderBottomWidth := 0, borderLeftWidth := 0,
        borderColor := "", borderStyle := "none", opacity := 1, boxShadow := "none",
        overflow := "visible", display := "block", flexDirection := "row",
        alignItems := "normal", justifyContent := "normal", rowGap := 0, columnGap := 0,
        paddingTop := 0, paddingRight := 0, paddingBottom := 0, paddingLeft := 0,
        position := "static" } =
      [Paint.solid { color := ⟨some 0, some (128/255), some 0⟩, opacity := some 1 }] := by
  constructor
  · exact c8_parse_failure_fallback.1
      "linear-gradient(0deg, rgb(255, 0, 0), rgb(0, 0, 255))"
      { angleDeg := some 0,
        gradientStops := [
          { position := some 0, color := ⟨some 1, some 0, some 0, some 1⟩ },
          { position := some 1, color := ⟨some 0, some 0, some 1, some 1⟩ }] }
      (by decide)
  · rw [c8_parse_failure_fallback.2.1 _ (by decide) (by decide) (by decide)]
    decide

-- ─── Supporting lemmas for C2, C7, C9 ────────────────────────────

theorem find_first_true {α : Type} {p : α → Bool} (hp : ∀ a, p a = true) :
    ∀ l : List α, l ≠ [] → ∃ x, l.find? p = some x
  | [], h => absurd rfl h
  | a :: l, _ => ⟨a, by simp [List.find?, hp a]⟩

theorem loadBestFontCandidates_ne_nil (family style : String) :
    loadBestFontCandidates family style ≠ [] := by
  unfold loadBestFontCandidates
  intro h
  have hlen := congrArg List.length h
  simp [List.length_append] at hlen

theorem loadBestFont_ok {env : Env} (hf : ∀ fn, env.fontLoads fn = true)
    (family style : String) : ∃ fn, loadBestFont env family style = .ok fn := by
  obtain ⟨x, hx⟩ := find_first_true (p := fun fn => env.fontLoads fn) hf
    (loadBestFontCandidates family style) (loadBestFontCandidates_ne_nil family style)
  exact ⟨x, by simp [loadBestFont, hx]⟩

theorem boldSegOverride_ok {env : Env} (hf : ∀ fn, env.fontLoads fn = true)
    (family : String) (isItalic : Bool) (charsLen offset : ℕ) (seg : TextSegment) :
    ∃ o, boldSegOverride env family isItalic charsLen offset seg = .ok o := by
  obtain ⟨fn, hfn⟩ := loadBestFont_ok hf family (weightToFigmaStyle "700" isItalic)
  unfold boldSegOverride
  simp only [hfn]
  repeat' split
  all_goals try exact ⟨_, rfl⟩
  all_goals rename_i heq
  all_goals split at heq <;> simp_all

theorem boldSegmentsGo_ok {env : Env} (hf : ∀ fn, env.fontLoads fn = true)
    (family : String) (isItalic : Bool) (charsLen : ℕ) :
    ∀ (segs : List TextSegment) (offset : ℕ),
      ∃ o, boldSegmentsGo env family isItalic charsLen offset segs = .ok o
  | [], _ => ⟨[], rfl⟩
  | seg :: rest, offset => by
    obtain ⟨o1, h1⟩ := boldSegOverride_ok hf family isItalic charsLen offset seg
    obtain ⟨o2, h2⟩ :=
      boldSegmentsGo_ok hf family isItalic charsLen rest (offset + seg.text.length)
    unfold boldSegmentsGo
    rw [h1, h2]
    exact ⟨_, rfl⟩

theorem applyBoldSegments_ok {env : Env} (hf : ∀ fn, env.fontLoads fn = true)
    (family : String) (isItalic : Bool) (textSegments : Option (List TextSegment))
    (chars : String) :
    ∃ o, applyBoldSegments env family isItalic textSegments chars = .ok o := by
  cases textSegments with
  | none => exact ⟨[], rfl⟩
  | some segs =>
    unfold applyBoldSegments
    show ∃ o, (if segs.isEmpty = true then Except.ok []
        else boldSegmentsGo env family isItalic chars.length 0 segs) = Except.ok o
    by_cases hseg : segs.isEmpty = true
    · rw [if_pos hseg]
      exact ⟨_, rfl⟩
    · rw [if_neg hseg]
      exact boldSegmentsGo_ok hf family isItalic chars.length segs 0

theorem buildTextLeaf_ok {env : Env} (hf : ∀ fn, env.fontLoads fn = true)
    (core : NodeCore) (text : String) (w h : ℚ) :
    ∃ n, buildTextLeaf env core text w h =
      .ok (n, (if hasBorderB core.style || hasBgB core.style then 1 else 0), 1) := by
  obtain ⟨fn, hfn⟩ := loadBestFont_ok hf (mapFontFamily core.style.fontFamily)
    (weightToFigmaStyle core.style.fontWeight
      (core.style.fontStyle = "italic" || core.style.fontStyle = "oblique"))
  obtain ⟨ovs, hovs⟩ := applyBoldSegments_ok hf (mapFontFamily core.style.fontFamily)
    (core.style.fontStyle = "italic" || core.style.fontStyle = "oblique")
    core.textSegments text
  unfold buildTextLeaf
  simp only [hfn, hovs]
  cases hbox : hasBorderB core.style || hasBgB core.style with
  | true =>
    repeat' split
    all_goals exact ⟨_, rfl⟩
  | false =>
    repeat' split
    all_goals exact ⟨_, rfl⟩

/-- `(if true = true then a else b) = a` (the Bool-coerced `if` of the
embedding). -/
theorem if_bool_true {α : Sort u} (a b : α) : (if true = true then a else b) = a := rfl

/-- `(if false = true then a else b) = b`. -/
theorem if_bool_false {α : Sort u} (a b : α) : (if false = true then a else b) = b := rfl

/-- The container branch of `buildTree` always succeeds, emitting the frame
with exactly the successfully-built children. -/
theorem buildTree_container_eq (env : Env) (core : NodeCore) (children : List DomNodeData)
    (hleaf : ¬(truthyStr core.text && children.isEmpty) = true)
    (hsvg : core.tagName ≠ "svg") (himg : core.tagName ≠ "img") :
    buildTree env (.mk core children) = .ok
      (.frame
        { name := core.tagName,
          width := children.foldl
            (fun acc c => max acc ((c.core.rect.x + c.core.rect.width : ℤ) : ℚ))
            (max (core.rect.width : ℚ) 1),
          height := children.foldl
            (fun acc c => max acc ((c.core.rect.y + c.core.rect.height : ℤ) : ℚ))
            (max (core.rect.height : ℚ) 1),
          x := (core.rect.x : ℚ), y := (core.rect.y : ℚ),
          fills := applyFrameStyleFills core.style,
          clipsContent := applyFrameStyleClips core.style, visible := core.visible }
        (buildChildren env children).1,
      (buildChildren env children).2.1 + 1, (buildChildren env children).2.2) := by
  simp only [buildTree]
  rw [if_neg hleaf, if_neg hsvg, if_neg himg]

mutual

theorem buildTree_conservation (env : Env) (hf : ∀ fn, env.fontLoads fn = true) :
    (node : DomNodeData) → ∃ r, buildTree env node = .ok r ∧
      r.2.1 + r.2.2 + (irStats env node).2.2 = (irStats env node).1 + (irStats env node).2.1
  | .mk core children => by
    by_cases hleaf : (truthyStr core.text && children.isEmpty) = true
    · obtain ⟨n, hn⟩ := buildTextLeaf_ok hf core (core.text.getD "")
        (max (core.rect.width : ℚ) 1) (max (core.rect.height : ℚ) 1)
      have heq : buildTree env (.mk core children) =
          .ok (n, (if hasBorderB core.style || hasBgB core.style then 1 else 0), 1) := by
        simp only [buildTree]
        rw [if_pos hleaf]
        exact hn
      refine ⟨_, heq, ?_⟩
      simp only [irStats]
      rw [if_pos hleaf]
      cases hasBorderB core.style || hasBgB core.style <;> simp
    · by_cases hsvg : core.tagName = "svg"
      · have heq : buildTree env (.mk core children) =
            .ok (buildSvg env core (max (core.rect.width : ℚ) 1)
              (max (core.rect.height : ℚ) 1)) := by
          simp only [buildTree]
          rw [if_neg hleaf, if_pos hsvg]
        refine ⟨_, heq, ?_⟩
        simp only [irStats]
        rw [if_neg hleaf, if_pos hsvg]
        unfold buildSvg
        rcases hh : core.svgHtml with _ | svg
        · simp
        · simp only [hh]
          cases hp : env.svgParses svg <;> simp [hp]
      · by_cases himg : core.tagName = "img"
        · have heq : buildTree env (.mk core children) =
              .ok (buildImg core (max (core.rect.width : ℚ) 1)
                (max (core.rect.height : ℚ) 1)) := by
            simp only [buildTree]
            rw [if_neg hleaf, if_neg hsvg, if_pos himg]
          refine ⟨_, heq, ?_⟩
          simp only [irStats]
          rw [if_neg hleaf, if_neg hsvg, if_pos himg]
          simp [buildImg]
        · have ih := buildChildren_conservation env hf children
          refine ⟨_, buildTree_container_eq env core children hleaf hsvg himg, ?_⟩
          simp only [irStats]
          rw [if_neg hleaf, if_neg hsvg, if_neg himg]
          simp only []
          omega

theorem buildChildren_conservation (env : Env) (hf : ∀ fn, env.fontLoads fn = true) :
    (l : List DomNodeData) →
      (buildChildren env l).2.1 + (buildChildren env l).2.2 + (irStatsList env l).2.2 =
        (irStatsList env l).1 + (irStatsList env l).2.1
  | [] => by simp [buildChildren, irStatsList]
  | c :: rest => by
    obtain ⟨r, hr, hcount⟩ := buildTree_conservation env hf c
    have ih := buildChildren_conservation env hf rest
    simp only [buildChildren, irStatsList, hr]
    omega

end

theorem buildChildren_filterMap (env : Env) :
    ∀ l : List DomNodeData,
      (buildChildren env l).1 = l.filterMap
        (fun c => match buildTree env c with | .ok r => some r.1 | .error _ => none)
  | [] => rfl
  | c :: rest => by
    have ih := buildChildren_filterMap env rest
    simp only [buildChildren, List.filterMap_cons]
    cases h : buildTree env c <;> simp [h, ih]

theorem makeText_zero_auto (env : Env) (style : DomStyleData) (text : String)
    (fontName : FontName) (tx ty : ℚ) :
    (makeText env style text fontName tx ty 0).textAutoResize = .WIDTH_AND_HEIGHT := by
  simp [makeText]

-- ─── Claims C2, C7, C9, C10 ──────────────────────────────────────

unseal Rat.add Rat.mul Rat.inv Rat.sub in
/-- C2 counterexample: a text leaf carrying a background ("boxed text") is
one traversed IR node but increments both counters — the reply sum is 2,
not 1. -/
theorem c2_tree_conservation_counterexample :
    countsOf (buildTree envAllOk boxedTextIR) = some (1, 1) ∧
    irStats envAllOk boxedTextIR = (1, 1, 0) ∧ (1 + 1 : ℕ) ≠ 1 :=
  ⟨by decide, by decide, by decide⟩

/-- C2 (amended): when every font load succeeds, reconstruction succeeds and
`frameCount + textCount` equals the number of traversed IR nodes *plus* the
number of boxed text leaves (each counted as both a frame and a text)
*minus* the number of svg nodes that fall back to the uncounted placeholder
rectangle; the only other omissions are the zero-size/hidden nodes already
pruned by the Extractor. -/
theorem c2_tree_conservation_amended (env : Env) (hf : ∀ fn, env.fontLoads fn = true)
    (node : DomNodeData) :
    ∃ r, buildTree env node = .ok r ∧
      r.2.1 + r.2.2 + (irStats env node).2.2 = (irStats env node).1 + (irStats env node).2.1 :=
  buildTree_conservation env hf node

theorem c2_tree_conservation_witness :
    ∃ r, buildTree envAllOk boxedTextIR = .ok r ∧
      r.2.1 + r.2.2 + (irStats envAllOk boxedTextIR).2.2 =
        (irStats envAllOk boxedTextIR).1 + (irStats envAllOk boxedTextIR).2.1 :=
  c2_tree_conservation_amended envAllOk (fun _ => rfl) boxedTextIR

/-- C7: a text leaf is classified single-line exactly when its clamped
height is strictly below `3.5 × fontSize`; every single-line text leaf is
emitted in `WIDTH_AND_HEIGHT` (auto-width) mode, so it can never wrap,
while a boxed text leaf at or above the threshold gets the fixed-width
`HEIGHT` mode (the multi-line policy). -/
theorem c7_single_line_auto_width (env : Env) (core : NodeCore) (children : List DomNodeData)
    (hf : ∀ fn, env.fontLoads fn = true)
    (hleaf : (truthyStr core.text && children.isEmpty) = true) :
    (isSingleLineB core.style (max (core.rect.height : ℚ) 1) = true ↔
      max (core.rect.height : ℚ) 1 < core.style.fontSize * (7/2)) ∧
    (max (core.rect.height : ℚ) 1 < core.style.fontSize * (7/2) →
      ∃ r t, buildTree env (.mk core children) = .ok r ∧
        emittedTextOf r.1 = some t ∧ t.textAutoResize = .WIDTH_AND_HEIGHT) ∧
    (¬ max (core.rect.height : ℚ) 1 < core.style.fontSize * (7/2) →
      (hasBorderB core.style || hasBgB core.style) = true →
      ∃ r t, buildTree env (.mk core children) = .ok r ∧
        emittedTextOf r.1 = some t ∧ t.textAutoResize = .HEIGHT) := by
  obtain ⟨fn, hfn⟩ := loadBestFont_ok hf (mapFontFamily core.style.fontFamily)
    (weightToFigmaStyle core.style.fontWeight
      (core.style.fontStyle = "italic" || core.style.fontStyle = "oblique"))
  obtain ⟨ovs, hovs⟩ := applyBoldSegments_ok hf (mapFontFamily core.style.fontFamily)
    (core.style.fontStyle = "italic" || core.style.fontStyle = "oblique")
    core.textSegments (core.text.getD "")
  have hbt : buildTree env (.mk core children) =
      buildTextLeaf env core (core.text.getD "") (max (core.rect.width : ℚ) 1)
        (max (core.rect.height : ℚ) 1) := by
    simp only [buildTree]
    rw [if_pos hleaf]
  refine ⟨by simp [isSingleLineB], ?_, ?_⟩
  · intro hsl
    have hslb : isSingleLineB core.style (max (core.rect.height : ℚ) 1) = true := by
      simp [isSingleLineB, hsl]
    rw [hbt]
    unfold buildTextLeaf
    simp only [hfn, hovs, hslb, if_bool_true]
    cases hbox : hasBorderB core.style || hasBgB core.style
    all_goals simp only [if_bool_true, if_bool_false, if_true, if_false]
    all_goals repeat' split
    all_goals refine ⟨_, _, rfl, rfl, ?_⟩
    all_goals simp [makeText]
  · intro hml hbox
    have hslb : isSingleLineB core.style (max (core.rect.height : ℚ) 1) = false := by
      simp [isSingleLineB, hml]
    have hta : (0 : ℚ) <
        max (max (core.rect.width : ℚ) 1 - core.style.paddingLeft -
          core.style.paddingRight) 10 :=
      lt_of_lt_of_le (by norm_num) (le_max_right _ 10)
    rw [hbt]
    unfold buildTextLeaf
    simp only [hfn, hovs, hslb, hbox, if_bool_true, if_bool_false, if_true, if_false]
    repeat' split
    all_goals refine ⟨_, _, rfl, rfl, ?_⟩
    all_goals simp [makeText, hta]

unseal Rat.add Rat.mul Rat.inv Rat.sub in
theorem c7_single_line_auto_width_witness :
    isSingleLineB textLeaf55.style (max ((textLeaf55.rect.height : ℤ) : ℚ) 1) = true ∧
    isSingleLineB textLeaf56.style (max ((textLeaf56.rect.height : ℤ) : ℚ) 1) = false ∧
    (∃ r t, buildTree envAllOk (.mk textLeaf55 []) = .ok r ∧
      emittedTextOf r.1 = some t ∧ t.textAutoResize = .WIDTH_AND_HEIGHT) ∧
    (∃ r t, buildTree envAllOk (.mk textLeaf56 []) = .ok r ∧
      emittedTextOf r.1 = some t ∧ t.textAutoResize = .HEIGHT) :=
  ⟨by decide, by decide,
   (c7_single_line_auto_width envAllOk textLeaf55 [] (fun _ => rfl) (by decide)).2.1
     (by norm_num [textLeaf55, baseStyle]),
   (c7_single_line_auto_width envAllOk textLeaf56 [] (fun _ => rfl) (by decide)).2.2
     (by norm_num [textLeaf56, baseStyle]) (by decide)⟩

/-- C9: a per-subtree exception — including font-ladder exhaustion, which
`loadBestFont` raises exactly when every candidate fails to load — is
caught by the container's per-child try/catch: the failing subtree alone is
omitted, siblings are kept in order, the container itself still succeeds,
and the import handler always replies `import-done`, never `import-error`,
for such failures. -/
theorem c9_per_subtree_failure_contained :
    (∀ (env : Env) (family style : String),
        (∃ e, loadBestFont env family style = .error e) ↔
          ∀ fn ∈ loadBestFontCandidates family style, env.fontLoads fn = false) ∧
    (∀ (env : Env) (l : List DomNodeData),
        (buildChildren env l).1 = l.filterMap
          (fun c => match buildTree env c with | .ok r => some r.1 | .error _ => none)) ∧
    (∀ (env : Env) (core : NodeCore) (children : List DomNodeData),
        ¬(truthyStr core.text && children.isEmpty) = true →
        core.tagName ≠ "svg" → core.tagName ≠ "img" →
        ∃ fd c1 c2, buildTree env (.mk core children) =
          .ok (.frame fd (buildChildren env children).1, c1, c2)) ∧
    (∀ (env : Env) (data : DomNodeData),
        ∃ root fc tc, handleImport env data = (root, .importDone fc tc)) := by
  refine ⟨?_, buildChildren_filterMap, ?_, ?_⟩
  · intro env family style
    constructor
    · rintro ⟨e, he⟩ fn hmem
      unfold loadBestFont at he
      rcases hfind : (loadBestFontCandidates family style).find?
          (fun fn => env.fontLoads fn) with _ | x
      · have := List.find?_eq_none.mp hfind fn hmem
        simpa using this
      · rw [hfind] at he
        exact absurd he (by simp)
    · intro hall
      unfold loadBestFont
      rcases hfind : (loadBestFontCandidates family style).find?
          (fun fn => env.fontLoads fn) with _ | x
      · exact ⟨_, rfl⟩
      · have hx := List.find?_some hfind
        have hmem := List.mem_of_find?_eq_some hfind
        rw [hall x hmem] at hx
        exact absurd hx (by simp)
  · intro env core children hleaf hsvg himg
    exact ⟨_, _, _, buildTree_container_eq env core children hleaf hsvg himg⟩
  · intro env data
    exact ⟨_, _, _, rfl⟩

unseal Rat.add Rat.mul Rat.inv Rat.sub in
theorem c9_per_subtree_failure_contained_witness :
    (∃ e, loadBestFont envNoFonts "Inter" "Regular" = .error e) ∧
    (∃ fd c1 c2, buildTree envNoFonts (.mk divCore [plainTextChild, imgChild]) =
      .ok (.frame fd (buildChildren envNoFonts [plainTextChild, imgChild]).1, c1, c2)) :=
  ⟨(c9_per_subtree_failure_contained.1 envNoFonts "Inter" "Regular").mpr
     (fun _ _ => rfl),
   c9_per_subtree_failure_contained.2.2.1 envNoFonts divCore [plainTextChild, imgChild]
     (by decide) (by decide) (by decide)⟩

unseal Rat.add Rat.mul Rat.inv Rat.sub in
/-- C10: a paint from `toSolidPaint` implies `isTransparent` is false, but
not conversely: an unparseable non-empty color (e.g. an `oklch()` value
that escaped normalization) has `isTransparent` false yet yields no paint —
and such a `backgroundColor` still classifies a text leaf as boxed
(`hasBg` true, wrapped in a frame). -/
theorem c10_transparency_paint_relation :
    (∀ css p, toSolidPaint css = some p → isTransparent css = false) ∧
    (parseColor "oklch(0.5 0.1 20)" = none ∧
     isTransparent "oklch(0.5 0.1 20)" = false ∧
     toSolidPaint "oklch(0.5 0.1 20)" = none ∧
     hasBgB { baseStyle with backgroundColor := "oklch(0.5 0.1 20)" } = true) ∧
    (builtNodeOf (buildTree envAllOk oklchTextIR)).map boxedShape = some true := by
  refine ⟨?_, by decide, by decide⟩
  intro css p h
  rcases hp : parseColor css with _ | c
  · rw [toSolidPaint, hp] at h
    exact absurd h (by simp)
  · have hm : toSolidPaint css =
        if jLt c.a (1/100) then none else some { color := c.rgb, opacity := c.a } := by
      unfold toSolidPaint
      rw [hp]
    have hjlt : jLt c.a (1/100) = false := by
      cases hbb : jLt c.a (1/100)
      · rfl
      · rw [hm, hbb] at h
        simp at h
    have htriv : (css = "" || css = "transparent" || css = "none") = false := by
      cases hcond : (css = "" || css = "transparent" || css = "none")
      · rfl
      · exfalso
        unfold parseColor at hp
        rw [if_pos hcond] at hp
        exact absurd hp (by simp)
    unfold isTransparent
    rw [htriv, if_bool_false, hp]
    exact hjlt

unseal Rat.add Rat.mul Rat.inv Rat.sub in
theorem c10_transparency_paint_relation_witness :
    isTransparent "rgb(255, 0, 0)" = false :=
  c10_transparency_paint_relation.1 "rgb(255, 0, 0)"
    { color := ⟨some 1, some 0, some 0⟩, opacity := some 1 } (by decide)

-- ─── C1: the extractor text/children invariant ───────────────────

theorem goodNode_leaf (core : NodeCore) : goodNode (.mk core []) = true := by
  simp [goodNode, goodList]

theorem goodList_append (l1 l2 : List DomNodeData) :
    goodList (l1 ++ l2) = (goodList l1 && goodList l2) := by
  induction l1 with
  | nil => simp [goodList]
  | cons c cs ih => simp [goodList, ih, Bool.and_assoc]

theorem goodNode_pseudo {env : ExtractEnv} {hostCs : CS} {name : String} {pcs : CS}
    {p : DomNodeData} (h : extractPseudoElement env hostCs name pcs = some p) :
    goodNode p = true := by
  simp only [extractPseudoElement] at h
  repeat' split at h
  all_goals first
    | exact Option.noConfusion h
    | (injection h with h
       rw [← h]
       exact goodNode_leaf _)

theorem goodList_consPseudo {env : ExtractEnv} {hostCs : CS} {name : String} {pcs : CS}
    (c0 : List DomNodeData) (hch : goodList c0 = true) :
    goodList (match extractPseudoElement env hostCs name pcs with
      | some p => p :: c0
      | none => c0) = true := by
  cases hp : extractPseudoElement env hostCs name pcs with
  | none => simpa using hch
  | some p => simp [goodList, goodNode_pseudo hp, hch]

theorem goodList_appendPseudo {env : ExtractEnv} {hostCs : CS} {name : String} {pcs : CS}
    (c0 : List DomNodeData) (hch : goodList c0 = true) :
    goodList (match extractPseudoElement env hostCs name pcs with
      | some p => c0 ++ [p]
      | none => c0) = true := by
  cases hp : extractPseudoElement env hostCs name pcs with
  | none => simpa using hch
  | some p => simp [goodList_append, goodList, goodNode_pseudo hp, hch]

theorem demoteText_good (env : ExtractEnv) (cs : CS) (rect : QRect)
    (text : Option String) (segs : Option (List TextSegment))
    (children : List DomNodeData) (hch : goodList children = true) :
    ((!truthyStr (demoteText env cs rect text segs children).1 ||
      (demoteText env cs rect text segs children).2.2.isEmpty) &&
     goodList (demoteText env cs rect text segs children).2.2) = true := by
  unfold demoteText
  split
  · simp [truthyStr, goodList_append, goodList, goodNode_leaf, hch]
  · rename_i hcond
    cases ht : truthyStr text <;> cases he : children.isEmpty <;> simp_all

theorem assembleNode_good (env : ExtractEnv) (d : ElemData) (parentRect : QRect)
    (tag : String) (text1 : Option String) (segs : Option (List TextSegment))
    (isPh : Bool) (imageUrl : Option String) (children0 : List DomNodeData)
    (hch : goodList children0 = true) :
    goodNode (assembleNode env d parentRect tag text1 segs isPh imageUrl children0) =
      true := by
  unfold assembleNode
  simp only [goodNode]
  exact demoteText_good env d.cs d.rect text1 segs _
    (goodList_appendPseudo _ (goodList_consPseudo _ hch))

mutual

theorem goodNode_serializeDom (env : ExtractEnv) :
    ∀ (n : DomNode) (parentRect : QRect) (isRoot : Bool) (out : DomNodeData),
      serializeDom env n parentRect isRoot = some out → goodNode out = true
  | .textNode _ _, _, _, out => by
    intro h
    exact absurd h (by simp [serializeDom])
  | .elem d kids, parentRect, isRoot, out => by
    intro h
    simp only [serializeDom] at h
    repeat' split at h
    all_goals try exact Option.noConfusion h
    all_goals simp only [Option.some.injEq] at h
    all_goals rw [← h]
    all_goals first
      | exact goodNode_leaf _
      | exact assembleNode_good env d parentRect _ _ _ _ _ _
          (goodList_serializeMixed env kids d.rect d.cs)
      | exact assembleNode_good env d parentRect _ _ _ _ _ _
          (goodList_serializePlain env kids d.rect)
      | exact assembleNode_good env d parentRect _ _ _ _ _ _ rfl

theorem goodList_serializeMixed (env : ExtractEnv) :
    ∀ (kids : List DomNode) (rect : QRect) (cs : CS),
      goodList (serializeMixed env kids rect cs) = true
  | [], _, _ => rfl
  | k :: ks, rect, cs => by
    have ih := goodList_serializeMixed env ks rect cs
    cases k with
    | textNode content trect =>
      simp only [serializeMixed]
      rw [goodList_append, ih, Bool.and_true]
      repeat' split
      all_goals simp [goodList, goodNode_leaf, mkTextRunNode]
    | elem dd kk =>
      simp only [serializeMixed]
      rw [goodList_append, ih, Bool.and_true]
      split
      · rfl
      · cases hx : serializeDom env (.elem dd kk) rect false with
        | none => rfl
        | some x =>
          have hg := goodNode_serializeDom env (.elem dd kk) rect false x hx
          simp [Option.toList, goodList, hg]

theorem goodList_serializePlain (env : ExtractEnv) :
    ∀ (kids : List DomNode) (rect : QRect),
      goodList (serializePlain env kids rect) = true
  | [], _ => rfl
  | k :: ks, rect => by
    have ih := goodList_serializePlain env ks rect
    cases k with
    | textNode content trect =>
      simp only [serializePlain]
      rw [goodList_append, ih, Bool.and_true]
      rfl
    | elem dd kk =>
      simp only [serializePlain]
      rw [goodList_append, ih, Bool.and_true]
      split
      · rfl
      · cases hx : serializeDom env (.elem dd kk) rect false with
        | none => rfl
        | some x =>
          have hg := goodNode_serializeDom env (.elem dd kk) rect false x hx
          simp [Option.toList, goodList, hg]

end

/-- C1: every IR node produced by `serializeDom` satisfies the invariant —
never both a non-empty `text` and a non-empty `children` list — and
whenever a (truthy) text would coexist with extracted children, the
demotion step clears the node's text and appends a synthetic `"#text"`
child positioned inside the padding box carrying that text. -/
theorem c1_extractor_text_children_invariant :
    (∀ (env : ExtractEnv) (n : DomNode) (parentRect : QRect) (isRoot : Bool)
        (out : DomNodeData),
        serializeDom env n parentRect isRoot = some out → goodNode out = true) ∧
    (∀ (env : ExtractEnv) (cs : CS) (rect : QRect) (t : String)
        (segs : Option (List TextSegment)) (children : List DomNodeData),
        t ≠ "" → children ≠ [] →
        (demoteText env cs rect (some t) segs children).1 = none ∧
        (demoteText env cs rect (some t) segs children).2.1 = none ∧
        (demoteText env cs rect (some t) segs children).2.2 =
          children ++ [.mk
            { tagName := "#text", text := some t, textSegments := segs,
              imageUrl := none, svgHtml := none,
              rect := ⟨jsRound (pf cs.paddingLeft), jsRound (pf cs.paddingTop),
                       jsRound (rect.width - pf cs.paddingLeft - pf cs.paddingRight),
                       jsRound (rect.height - pf cs.paddingTop - pf cs.paddingBottom)⟩,
              visible := true, style := strippedTextStyle env cs } []]) := by
  refine ⟨fun env => goodNode_serializeDom env, ?_⟩
  intro env cs rect t segs children ht hch
  have hcond : (truthyStr (some t) && !children.isEmpty) = true := by
    simp [truthyStr, ht, hch]
  unfold demoteText
  rw [if_pos hcond]
  exact ⟨rfl, rfl, rfl⟩

unseal Rat.add Rat.mul Rat.inv Rat.sub in
/-- Witness: serializing the concrete `div` whose direct text coexists with
a rendered `::before` pseudo-element succeeds and satisfies the invariant,
and the demotion step clears the text of a node with a non-empty child
list. -/
theorem c1_extractor_text_children_invariant_witness :
    (∃ out, serializeDom envNoCanvas demoElem ⟨0, 0, 100, 40⟩ true = some out ∧
       goodNode out = true) ∧
    (demoteText envNoCanvas baseCS ⟨0, 0, 100, 40⟩ (some "hi") none
      [demoChildLeaf]).1 = none := by
  constructor
  · cases hx : serializeDom envNoCanvas demoElem ⟨0, 0, 100, 40⟩ true with
    | none =>
      have hs : (serializeDom envNoCanvas demoElem ⟨0, 0, 100, 40⟩ true).isSome =
          true := by decide
      rw [hx] at hs
      exact absurd hs (by simp)
    | some out =>
      exact ⟨out, rfl,
        c1_extractor_text_children_invariant.1 envNoCanvas demoElem
          ⟨0, 0, 100, 40⟩ true out hx⟩
  · exact (c1_extractor_text_children_invariant.2 envNoCanvas baseCS
      ⟨0, 0, 100, 40⟩ "hi" none [demoChildLeaf] (by decide)
      (List.cons_ne_nil _ _)).1

end FHI
